import Mathlib

/-!
Verification of the pixeltable catalog/view/dataframe slice.

The development shallowly embeds the code of `src/pixeltable/catalog/view.py` and
`src/pixeltable/dataframe.py`.  Components of the repository that are referenced by that
code but are not part of the provided sources (the `Catalog` registry, `TableVersion`,
`TableVersionPath`, the generic `Table` base class, and the external `exprs` module) are
modelled from the specification; each such definition carries a doc comment starting with
`Modelled from the spec:`.

Conventions of the embedding:
* Python dicts become association lists (`dictGet`/`dictSet`/`dictErase` mirror
  `d[k]`, `d[k] = v`, `del d[k]`, preserving insertion order like Python dicts).
* Python object mutation is explicit state passing: operations on the process-wide
  catalog take and return a `PxState`; an operation that raises before mutating returns
  the input state unchanged together with an error.
* `raise excs.Error(...)` becomes `Except.error`; `assert` failures in drop code become
  the distinguished `DropErr.assertionFailure`.
* UUIDs become `Nat` identifiers; freshness of a newly allocated id is a hypothesis.
-/

set_option autoImplicit false

/-- Lookup in a Python-dict-like association list (first binding wins). -/
def dictGet {α : Type} : List (Nat × α) → Nat → Option α
  | [], _ => none
  | (k, v) :: rest, k' => if k' = k then some v else dictGet rest k'

/-- `d[k] = v` on a Python-dict-like association list: replace in place, else append. -/
def dictSet {α : Type} : List (Nat × α) → Nat → α → List (Nat × α)
  | [], k, v => [(k, v)]
  | (k0, v0) :: rest, k, v => if k0 = k then (k, v) :: rest else (k0, v0) :: dictSet rest k v

/-- `del d[k]` on a Python-dict-like association list. -/
def dictErase {α : Type} : List (Nat × α) → Nat → List (Nat × α)
  | [], _ => []
  | (k0, v0) :: rest, k => if k0 = k then rest else (k0, v0) :: dictErase rest k

/-- String-keyed dict lookup (used for parameter dictionaries). -/
def lookupStr {α : Type} : List (String × α) → String → Option α
  | [], _ => none
  | (k, v) :: rest, k' => if k' = k then some v else lookupStr rest k'

/-- `list.remove(x)`: drop the first occurrence. -/
def listRemove : List Nat → Nat → List Nat
  | [], _ => []
  | x :: rest, y => if x = y then rest else x :: listRemove rest y

/-- Modelled from the spec: the column-type universe of the external type system,
restricted to the scalar types the claims exercise.  `invalidT` models `InvalidType`. -/
inductive PxType where
  | intT
  | floatT
  | boolT
  | stringT
  | invalidT
deriving DecidableEq

def PxType.is_invalid_type : PxType → Bool
  | .invalidT => true
  | _ => false

def PxType.is_bool_type : PxType → Bool
  | .boolT => true
  | _ => false

/-- Modelled from the spec: raw Python values that can appear as literals or arguments.
`badV` models a value that `Expr.from_object` cannot convert to an expression. -/
inductive PxVal where
  | intV (n : Int)
  | boolV (b : Bool)
  | strV (s : String)
  | badV
deriving DecidableEq

def typeOfVal : PxVal → PxType
  | .intV _ => .intT
  | .boolV _ => .boolT
  | .strV _ => .stringT
  | .badV => .invalidT

/-- Modelled from the spec: the external expression module (`pixeltable.exprs`), as a
representative fragment — free variables, literals, column references and a binary
combinator.  This is the shape the DataFrame and View code manipulates. -/
inductive Expr where
  | var (name : String) (ty : PxType)
  | lit (v : PxVal) (ty : PxType)
  | colRef (name : String) (ty : PxType)
  | binop (op : String) (l : Expr) (r : Expr) (ty : PxType)
deriving DecidableEq

def Expr.col_type : Expr → PxType
  | .var _ t => t
  | .lit _ t => t
  | .colRef _ t => t
  | .binop _ _ _ t => t

/-- `Expr.copy` / `copy.deepcopy`: produces a value-equal expression tree (deep copies
are identities under value semantics). -/
def Expr.copy (e : Expr) : Expr := e

/-- Modelled from the spec: `Expr.from_object` converts a raw value to a literal
expression, returning `none` when the value cannot be converted. -/
def Expr.from_object : PxVal → Option Expr
  | .badV => none
  | v => some (.lit v (typeOfVal v))

structure Column where
  name : String
  col_type : PxType
  nullable : Bool
  stored : Bool
  is_computed : Bool
  value_expr : Option Expr
deriving DecidableEq

/-- Modelled from the spec: one immutable version of a table — identity
`(table_id, version)`, snapshot flag, and its ordered Column list. -/
structure TableVersion where
  id : Nat
  name : String
  version : Nat
  is_snapshot : Bool
  columns : List Column
deriving DecidableEq

/-- Modelled from the spec: `TableVersion.create_snapshot_copy` materializes a snapshot
copy pinning the current version of the table (same table id, same version, snapshot
flag set). -/
def TableVersion.create_snapshot_copy (tv : TableVersion) : TableVersion :=
  { tv with is_snapshot := true }

/-- Modelled from the spec: `TableVersionPath` is the recursive ancestry chain
`{ tbl_version, base : Optional[TableVersionPath] }`; `root tv` is a path with no base,
`cons tv b` a path whose base is `b`. -/
inductive TableVersionPath where
  | root (tv : TableVersion)
  | cons (tv : TableVersion) (base : TableVersionPath)
deriving DecidableEq

def TableVersionPath.tbl_version : TableVersionPath → TableVersion
  | .root tv => tv
  | .cons tv _ => tv

def TableVersionPath.base : TableVersionPath → Option TableVersionPath
  | .root _ => none
  | .cons _ b => some b

/-- `get_tbl_versions`: all TableVersions in the chain, most-derived first. -/
def TableVersionPath.get_tbl_versions : TableVersionPath → List TableVersion
  | .root tv => [tv]
  | .cons tv b => tv :: b.get_tbl_versions

/-- Modelled from the spec: `is_snapshot()` of a path — the version at the head is a
snapshot and so is the whole base chain. -/
def TableVersionPath.is_snapshot : TableVersionPath → Bool
  | .root tv => tv.is_snapshot
  | .cons tv b => tv.is_snapshot && b.is_snapshot

def TableVersionPath.tbl_id (p : TableVersionPath) : Nat := p.tbl_version.id

def TableVersionPath.tbl_name (p : TableVersionPath) : String := p.tbl_version.name

/-- Modelled from the spec: the columns visible through a path (the view's own columns
followed by the base chain's). -/
def TableVersionPath.columns : TableVersionPath → List Column
  | .root tv => tv.columns
  | .cons tv b => tv.columns ++ b.columns

/-- `find_tbl_version`: locate an ancestor TableVersion by table id. -/
def TableVersionPath.find_tbl_version : TableVersionPath → Nat → Option TableVersion
  | .root tv, i => if tv.id = i then some tv else none
  | .cons tv b, i => if tv.id = i then some tv else b.find_tbl_version i

/-- Modelled from the spec: an expression `is_bound_by` a path iff every column
reference it contains resolves to a column visible within that path. -/
def Expr.is_bound_by : Expr → TableVersionPath → Bool
  | .var _ _, _ => true
  | .lit _ _, _ => true
  | .colRef n _, p => (p.columns.map Column.name).contains n
  | .binop _ l r _, p => l.is_bound_by p && r.is_bound_by p

/-- Modelled from the spec: `Expr.retarget` rebinds table/column references from a live
base path onto a snapshot path.  References are modelled by table id and column name,
and snapshot copies preserve both, so the id-level representation is unchanged. -/
def Expr.retarget (_p : TableVersionPath) (e : Expr) : Expr := e

/-- Retarget a column's value expression (`col.set_value_expr(col.value_expr.retarget(...))`). -/
def Column.retarget_value_expr (p : TableVersionPath) (c : Column) : Column :=
  { c with value_expr := c.value_expr.map (Expr.retarget p) }

/-- `View._get_snapshot_path` (src/pixeltable/catalog/view.py:177-193): return the path
unchanged if it is already a snapshot; otherwise replace the head version by a snapshot
copy when it is not itself a snapshot version, and recurse into the base. -/
def View.get_snapshot_path : TableVersionPath → TableVersionPath
  | .root tv =>
    if (TableVersionPath.root tv).is_snapshot then .root tv
    else .root (if tv.is_snapshot then tv else tv.create_snapshot_copy)
  | .cons tv b =>
    if (TableVersionPath.cons tv b).is_snapshot then .cons tv b
    else .cons (if tv.is_snapshot then tv else tv.create_snapshot_copy) (View.get_snapshot_path b)

/-- `UpdateStatus` result record of a mutation (only its presence matters here). -/
structure UpdateStatus where
  num_rows : Nat
deriving DecidableEq

/-- Catalog-facing View handle: id, directory, name, its TableVersionPath, the direct
base's id, and the `snapshot_only` flag (src/pixeltable/catalog/view.py:38-44). -/
structure ViewObj where
  id : Nat
  dir_id : Nat
  name : String
  tbl_version_path : TableVersionPath
  base_id : Nat
  snapshot_only : Bool
deriving DecidableEq

/-- The view metadata record persisted at creation (`md_schema.ViewMd`,
src/pixeltable/catalog/view.py:136-140).  Expressions are stored serialized; the
serialized forms are introduced with the DataFrame serialization below, so here the
predicate is kept as the expression value and the iterator arguments as the raw
argument dict. -/
structure ViewMd where
  is_snapshot : Bool
  predicate : Option Expr
  base_versions : List (Nat × Option Nat)
  iterator_class_fqn : Option String
  iterator_args : Option (List (String × PxVal))
deriving DecidableEq

/-- Modelled from the spec: a row-generating iterator class — fully-qualified name, a
statically declared input-parameter schema, an output-field schema, and the set of
output fields marked unstored. -/
structure IteratorCls where
  fqn : String
  input_schema : List (String × PxType)
  output_schema : List (String × PxType)
  unstored_cols : List String
deriving DecidableEq

/-- The process-wide mutable state: the Catalog's `tbls` (id→object) and
`tbl_dependents` (id→list of direct dependents, stored by id: in the arena view of the
catalog the object a dependents list holds is exactly `tbls[id]`), together with the
persisted metadata store and the set of physical TableVersion ids of the backing
store.  `dropped` records the ids of handles whose `is_dropped` flag has been set
(object attributes survive removal from the catalog maps, since Python references
persist). -/
structure PxState where
  tbls : List (Nat × ViewObj)
  tbl_dependents : List (Nat × List Nat)
  dropped : List Nat
  stored_md : List (Nat × ViewMd)
  phys_tbls : List Nat
deriving DecidableEq

/-- Modelled from the spec: `is_valid_identifier` from the catalog globals — non-empty,
starting with a letter or underscore, containing only alphanumerics and underscores. -/
def is_valid_identifier (s : String) : Bool :=
  match s.toList with
  | [] => false
  | c :: rest => (c.isAlpha || c = '_') && (c :: rest).all (fun ch => ch.isAlphanum || ch = '_')

/-- Modelled from the spec: `_POS_COLUMN_NAME`, the name of the synthesized position
column of a component view (defined in catalog globals, outside the given sources). -/
def POS_COLUMN_NAME : String := "pos"

/-- Modelled from the spec: `Table._create_columns` parses the user-supplied schema
dict into `Column` values; the inputs of this embedding are already parsed Columns. -/
def Table.create_columns (additional_columns : List Column) : List Column :=
  additional_columns

/-- Modelled from the spec: the generic `Table._verify_column` check — a valid
identifier, not colliding with an existing column name. -/
def Table.verify_column (col : Column) (existing_column_names : List String) :
    Except String Unit :=
  if !is_valid_identifier col.name then .error ("Invalid column name: " ++ col.name)
  else if existing_column_names.contains col.name then
    .error ("Duplicate column name: " ++ col.name)
  else .ok ()

/-- `View._verify_column` (src/pixeltable/catalog/view.py:168-175): non-computed view
columns must be nullable, then the generic checks. -/
def View.verify_column (col : Column) (existing_column_names : List String) :
    Except String Unit :=
  if !col.nullable && !col.is_computed then
    .error ("Column " ++ col.name ++ ": non-computed columns in views must be nullable")
  else Table.verify_column col existing_column_names

/-- `Table._verify_schema` specialised to View: check each column in order against the
names already seen. -/
def View.verify_schema_go : List Column → List String → Except String Unit
  | [], _ => .ok ()
  | c :: rest, seen =>
    match View.verify_column c seen with
    | .error msg => .error msg
    | .ok _ => View.verify_schema_go rest (seen ++ [c.name])

def View.verify_schema (columns : List Column) : Except String Unit :=
  View.verify_schema_go columns []

/-- Predicate validation of `View._create` (src/pixeltable/catalog/view.py:61-65):
the filter must be bound by the base, and is replaced by a copy. -/
def View.check_predicate (base : TableVersionPath) :
    Option Expr → Except String (Option Expr)
  | none => .ok none
  | some p =>
    if p.is_bound_by base then .ok (some p.copy)
    else .error ("Filter cannot be computed in the context of the base " ++ base.tbl_name)

/-- Computed-column validation of `View._create` (src/pixeltable/catalog/view.py:67-74):
every computed column's value expression must be bound by the base. -/
def View.check_value_exprs_bound (base : TableVersionPath) :
    List Column → Except String Unit
  | [] => .ok ()
  | c :: rest =>
    if c.is_computed then
      match c.value_expr with
      | some ve =>
        if ve.is_bound_by base then View.check_value_exprs_bound base rest
        else .error ("Column " ++ c.name ++
          ": value expression cannot be computed in the context of the base " ++ base.tbl_name)
      | none => View.check_value_exprs_bound base rest
    else View.check_value_exprs_bound base rest

/-- Modelled from the spec: validation of the iterator arguments against the iterator's
declared parameter schema (the source does this through `inspect.signature` binding and
`FunctionCall.normalize_args`): every declared parameter must receive an argument of
its type, and no argument may name an undeclared parameter. -/
def validate_iterator_args (it : IteratorCls) (args : List (String × PxVal)) : Bool :=
  it.input_schema.all (fun p => (args.map (fun a => (a.1, typeOfVal a.2))).contains p) &&
    args.all (fun a => (it.input_schema.map Prod.fst).contains a.1)

/-- The synthesized columns of a component view (src/pixeltable/catalog/view.py:99-108):
a leading unstored `pos` IntType column, then one column per iterator output field,
stored unless the field is marked unstored. -/
def iteratorColumns (it : IteratorCls) : List Column :=
  ⟨POS_COLUMN_NAME, .intT, true, false, false, none⟩ ::
    it.output_schema.map (fun p => ⟨p.1, p.2, true, !it.unstored_cols.contains p.1, false, none⟩)

/-- The name-collision check of `View._create` (src/pixeltable/catalog/view.py:110-113):
no user-declared column may reuse a name from the iterator output schema. -/
def View.check_iterator_collisions (iterator_col_names : List String) :
    List Column → Except String Unit
  | [] => .ok ()
  | c :: rest =>
    if iterator_col_names.contains c.name then
      .error ("Duplicate name: column " ++ c.name ++
        " is already present in the iterator output schema")
    else View.check_iterator_collisions iterator_col_names rest

/-- The iterator section of `View._create` (src/pixeltable/catalog/view.py:76-114):
validate the arguments, synthesize the iterator columns, reject collisions and prepend
the iterator columns to the user columns. -/
def View.build_columns_with_iterator (columns : List Column) :
    Option (IteratorCls × List (String × PxVal)) → Except String (List Column)
  | none => .ok columns
  | some (it, args) =>
    if !validate_iterator_args it args then
      .error "Cannot instantiate iterator with given arguments"
    else
      match View.check_iterator_collisions ((iteratorColumns it).map Column.name) columns with
      | .error msg => .error msg
      | .ok _ => .ok (iteratorColumns it ++ columns)

/-- Modelled from the spec: `TableVersion.create` persists the view metadata and —
unless the view is a pure snapshot with no columns and no predicate (the
`snapshot_only` fast path) — creates a physical TableVersion at version 0 for the new
table id. -/
def TableVersion.create (st : PxState) (new_id : Nat) (columns : List Column)
    (view_md : ViewMd) : PxState × Option TableVersion :=
  if view_md.is_snapshot && columns.isEmpty && view_md.predicate.isNone &&
      view_md.iterator_class_fqn.isNone then
    ({ st with stored_md := dictSet st.stored_md new_id view_md }, none)
  else
    ({ st with stored_md := dictSet st.stored_md new_id view_md,
               phys_tbls := st.phys_tbls ++ [new_id] },
     some ⟨new_id, "", 0, view_md.is_snapshot, columns⟩)

/-- The handle-construction and Catalog-registration tail of `View._create`
(src/pixeltable/catalog/view.py:145-166), taking the result of `TableVersion.create`:
if no TableVersion was created this is a pure snapshot (`snapshot_only=True`) reusing
the base path, otherwise the view's path stacks the new TableVersion on the base path;
then `tbl_dependents[view.id] = []`, `tbl_dependents[base.tbl_id()].append(view)` and
`tbls[view.id] = view`.  `View.__init__` asserts the base id is registered. -/
def View.finish_create (base : TableVersionPath) (dir_id : Nat) (name : String)
    (base_version_path : TableVersionPath) (new_id : Nat)
    (st1 : PxState) (tv_opt : Option TableVersion) : Except String (PxState × ViewObj) :=
  if (dictGet st1.tbl_dependents base.tbl_id).isNone then
    .error "assertion failed: base id not registered in tbl_dependents"
  else
    let view : ViewObj := match tv_opt with
      | none => ⟨new_id, dir_id, name, base_version_path, base.tbl_id, true⟩
      | some tv => ⟨new_id, dir_id, name, .cons tv base_version_path, base.tbl_id, false⟩
    let deps1 := dictSet st1.tbl_dependents view.id []
    match dictGet deps1 base.tbl_id with
    | none => .error "KeyError: base id not in tbl_dependents"
    | some bl =>
      .ok ({ st1 with tbl_dependents := dictSet deps1 base.tbl_id (bl ++ [view.id]),
                      tbls := dictSet st1.tbls view.id view }, view)

/-- The persistence and registration tail of `View._create`
(src/pixeltable/catalog/view.py:116-166): compute the (possibly snapshot) base path and
the pinned base versions, retarget expressions for snapshots, persist metadata, create
the TableVersion (None for pure snapshots), construct the View handle and register it in
the Catalog (`tbl_dependents[view.id] = []`; append to `tbl_dependents[base.tbl_id()]`;
`tbls[view.id] = view`).  `View.__init__` asserts that the base id is registered in
`tbl_dependents`. -/
def View.create_session (st : PxState) (dir_id : Nat) (name : String)
    (base : TableVersionPath) (columns : List Column) (predicate : Option Expr)
    (is_snapshot : Bool) (iterator : Option (IteratorCls × List (String × PxVal)))
    (new_id : Nat) : Except String (PxState × ViewObj) :=
  let iterator_class_fqn := iterator.map (fun p => p.1.fqn)
  let base_version_path := if is_snapshot then View.get_snapshot_path base else base
  let base_versions := base_version_path.get_tbl_versions.map
    (fun tv => (tv.id, if is_snapshot || tv.is_snapshot then some tv.version else none))
  let predicate1 := if is_snapshot then predicate.map (Expr.retarget base_version_path)
    else predicate
  let columns1 := if is_snapshot then columns.map (Column.retarget_value_expr base_version_path)
    else columns
  let view_md : ViewMd :=
    ⟨is_snapshot, predicate1, base_versions, iterator_class_fqn, iterator.map (fun p => p.2)⟩
  View.finish_create base dir_id name base_version_path new_id
    (TableVersion.create st new_id columns1 view_md).1
    (TableVersion.create st new_id columns1 view_md).2

/-- The validation pipeline of `View._create` (src/pixeltable/catalog/view.py:51-114),
in source order: column checks, predicate boundability, computed-column boundability,
iterator handling, then the session part. -/
def View.createCore (st : PxState) (dir_id : Nat) (name : String)
    (base : TableVersionPath) (additional_columns : List Column)
    (predicate : Option Expr) (is_snapshot : Bool)
    (iterator : Option (IteratorCls × List (String × PxVal))) (new_id : Nat) :
    Except String (PxState × ViewObj) :=
  let columns := Table.create_columns additional_columns
  match View.verify_schema columns with
  | .error msg => .error msg
  | .ok _ =>
    match View.check_predicate base predicate with
    | .error msg => .error msg
    | .ok predicate1 =>
      match View.check_value_exprs_bound base columns with
      | .error msg => .error msg
      | .ok _ =>
        match View.build_columns_with_iterator columns iterator with
        | .error msg => .error msg
        | .ok columns1 =>
          View.create_session st dir_id name base columns1 predicate1 is_snapshot
            iterator new_id

/-- `View._create` with the state-on-error convention made explicit: an error raised
during creation leaves the catalog state exactly as it was. -/
def View.create (st : PxState) (dir_id : Nat) (name : String)
    (base : TableVersionPath) (additional_columns : List Column)
    (predicate : Option Expr) (is_snapshot : Bool)
    (iterator : Option (IteratorCls × List (String × PxVal))) (new_id : Nat) :
    PxState × Except String ViewObj :=
  match View.createCore st dir_id name base additional_columns predicate is_snapshot
      iterator new_id with
  | .error msg => (st, .error msg)
  | .ok (st1, view) => (st1, .ok view)

/-- Errors of the drop path: contract violations (`assert`) are distinguished from
user-facing `excs.Error`. -/
inductive DropErr where
  | assertionFailure
  | userError (msg : String)
deriving DecidableEq

/-- Modelled from the spec: the generic `Table._drop` — refuse if already dropped, mark
dropped, delete the persisted metadata, drop the physical TableVersion, and remove the
handle from `Catalog.tbls`. -/
def Table.genericDrop (st : PxState) (v : ViewObj) : Except DropErr PxState :=
  if st.dropped.contains v.id then .error (.userError "table has been dropped")
  else .ok { st with dropped := v.id :: st.dropped,
                     stored_md := dictErase st.stored_md v.id,
                     phys_tbls := listRemove st.phys_tbls v.id,
                     tbls := dictErase st.tbls v.id }

/-- `View._drop` (src/pixeltable/catalog/view.py:195-212): assert every dependent is
already dropped; a snapshot-only view only deletes metadata (there is no physical
TableVersion), any other view delegates to the generic Table drop; finally remove the
view from its base's dependents list and delete its own dependents entry. -/
def View.drop (st : PxState) (v : ViewObj) : Except DropErr PxState :=
  match dictGet st.tbl_dependents v.id with
  | none => .error (.userError "KeyError: no dependents entry")
  | some dl =>
    if !dl.all (fun d => st.dropped.contains d) then .error .assertionFailure
    else
      let st1E : Except DropErr PxState :=
        if v.snapshot_only then
          if st.dropped.contains v.id then .error (.userError "table has been dropped")
          else .ok { st with dropped := v.id :: st.dropped,
                             stored_md := dictErase st.stored_md v.id,
                             tbls := dictErase st.tbls v.id }
        else Table.genericDrop st v
      match st1E with
      | .error e => .error e
      | .ok st1 =>
        match dictGet st1.tbl_dependents v.base_id with
        | none => .error (.userError "KeyError: no dependents entry for base")
        | some bl =>
          if !bl.contains v.id then .error (.userError "ValueError: not in dependents list")
          else
            let deps1 := dictErase (dictSet st1.tbl_dependents v.base_id (listRemove bl v.id)) v.id
            .ok { st1 with tbl_dependents := deps1 }

/-- `View.insert` (src/pixeltable/catalog/view.py:220-224): fails unconditionally and
touches nothing. -/
def View.insert (st : PxState) (v : ViewObj) (_rows : List (List (String × PxVal))) :
    PxState × Except String UpdateStatus :=
  (st, .error ("view " ++ v.name ++ ": cannot insert into view"))

/-- `View.delete` (src/pixeltable/catalog/view.py:226-227): fails unconditionally and
touches nothing. -/
def View.delete (st : PxState) (v : ViewObj) (_whereClause : Option Expr) :
    PxState × Except String UpdateStatus :=
  (st, .error ("view " ++ v.name ++ ": cannot delete from view"))

/-- The immutable declarative query builder (src/pixeltable/dataframe.py:133-164):
a TableVersionPath plus optional select list, predicate, group-by (expression list or
grouping-table reference), order-by pairs and row limit.  The Python constructor
deep-copies every expression argument; under value semantics the stored fields equal
the arguments. -/
structure DataFrame where
  tbl : TableVersionPath
  select_list : Option (List (Expr × Option String))
  where_clause : Option Expr
  group_by_clause : Option (List Expr)
  grouping_tbl : Option TableVersion
  order_by_clause : Option (List (Expr × Bool))
  limit_val : Option Int
deriving DecidableEq

/-- Modelled from the spec: `Expr.default_column_name` — a column reference defaults to
its column's name; other expressions have no default name. -/
def Expr.default_column_name : Expr → Option String
  | .colRef n _ => some n
  | _ => none

/-- The suffix search of `_normalize_select_list` (src/pixeltable/dataframe.py:207-212):
try `d_1`, `d_2`, ... up to `d_len(out_names)`, stopping at the first name not yet
seen; if every candidate is taken, the last one tried stands. -/
def findSuffixNameGo (d : String) (names : List String) : Nat → Nat → String
  | j, 0 => d ++ "_" ++ toString j
  | j, 1 => d ++ "_" ++ toString j
  | j, fuel + 2 =>
    let cand := d ++ "_" ++ toString j
    if names.contains cand then findSuffixNameGo d names (j + 1) (fuel + 1) else cand

def findSuffixName (d : String) (names : List String) : String :=
  findSuffixNameGo d names 1 names.length

/-- The loop of `DataFrame._normalize_select_list` (src/pixeltable/dataframe.py:198-223):
assign each entry its user name, or its default name (suffixed if already used), or
`col_i`. -/
def normalizeGo : List (Expr × Option String) → Nat → List Expr → List String →
    List Expr × List String
  | [], _, out_exprs, out_names => (out_exprs, out_names)
  | (e, name) :: rest, i, out_exprs, out_names =>
    let column_name := match name with
      | some n => n
      | none => match e.default_column_name with
        | some d => if out_names.contains d then findSuffixName d out_names else d
        | none => "col_" ++ toString i
    normalizeGo rest (i + 1) (out_exprs ++ [e]) (out_names ++ [column_name])

/-- `DataFrame._normalize_select_list` (src/pixeltable/dataframe.py:184-223): a `None`
select list expands to a column reference per visible column. -/
def normalizeSelectList (tbl : TableVersionPath)
    (select_list : Option (List (Expr × Option String))) : List Expr × List String :=
  let sl := match select_list with
    | none => tbl.columns.map (fun c => (Expr.colRef c.name c.col_type, (none : Option String)))
    | some l => l
  normalizeGo sl 0 [] []

/-- The expanded select-list expressions (`self._select_list_exprs`). -/
def DataFrame.select_list_exprs (df : DataFrame) : List Expr :=
  (normalizeSelectList df.tbl df.select_list).1

/-- The output column names (`self._schema.keys()`). -/
def DataFrame.schema_keys (df : DataFrame) : List String :=
  (normalizeSelectList df.tbl df.select_list).2

/-- A raw argument to `select`: either an expression or a raw value, which `select`
wraps as a literal (src/pixeltable/dataframe.py:476-484; the `InlineDict`/`InlineList`
wrappers of the external exprs module are collapsed into literal values here). -/
inductive SelectArg where
  | exprA (e : Expr)
  | rawA (v : PxVal)
deriving DecidableEq

def SelectArg.toExpr : SelectArg → Expr
  | .exprA e => e
  | .rawA v => .lit v (typeOfVal v)

/-- The wrap-and-type-check loop of `select` (src/pixeltable/dataframe.py:475-488). -/
def selectWrap : List (SelectArg × Option String) → Except String (List (Expr × Option String))
  | [] => .ok []
  | (a, name) :: rest =>
    let e := a.toExpr
    if e.col_type.is_invalid_type then .error "Invalid type"
    else
      match selectWrap rest with
      | .error msg => .error msg
      | .ok l => .ok ((e, name) :: l)

/-- The duplicate-name scan of `select` (src/pixeltable/dataframe.py:492-499): the
first name that repeats. -/
def findDupGo : List String → List String → Option String
  | _, [] => none
  | seen, n :: rest => if seen.contains n then some n else findDupGo (seen ++ [n]) rest

def findDup (names : List String) : Option String := findDupGo [] names

/-- `DataFrame.select` (src/pixeltable/dataframe.py:464-509): fails if a select list is
already set; validates user-provided names; an empty argument list returns the
receiver; otherwise wraps raw arguments, rejects invalid types and repeated output
names, and returns a new DataFrame with the select list set. -/
def DataFrame.select (df : DataFrame) (items : List SelectArg)
    (named_items : List (String × SelectArg)) : Except String DataFrame :=
  if df.select_list.isSome then .error "Select list already specified"
  else
    match named_items.find? (fun p => !is_valid_identifier p.1) with
    | some p => .error ("Invalid name: " ++ p.1)
    | none =>
      let base_list := items.map (fun e => (e, (none : Option String))) ++
        named_items.map (fun p => (p.2, some p.1))
      if base_list.isEmpty then .ok df
      else
        match selectWrap base_list with
        | .error msg => .error msg
        | .ok select_list =>
          match findDup (normalizeSelectList df.tbl (some select_list)).2 with
          | some n => .error ("Repeated column name " ++ n ++ " in select()")
          | none => .ok { df with select_list := some select_list }

/-- `DataFrame.where` (src/pixeltable/dataframe.py:511-524): the predicate must be of
boolean type; returns a new DataFrame with the where clause set. -/
def DataFrame.where' (df : DataFrame) (pred : Expr) : Except String DataFrame :=
  if !pred.col_type.is_bool_type then
    .error "Where(): expression needs to return bool"
  else .ok { df with where_clause := some pred }

/-- An argument to `group_by`: a catalog Table handle or an expression
(src/pixeltable/dataframe.py:526-558). -/
inductive GroupByArg where
  | tableA (t : ViewObj)
  | exprA (e : Expr)
deriving DecidableEq

/-- The scan over grouping items (src/pixeltable/dataframe.py:536-547): a Table item
must be the only item and must name a strict ancestor of the queried path. -/
def DataFrame.group_by_scan (df : DataFrame) (n_items : Nat) :
    List GroupByArg → Except String (Option TableVersion)
  | [] => .ok none
  | .tableA t :: _ =>
    if n_items > 1 then .error "group_by(): only one table can be specified"
    else
      match df.tbl.find_tbl_version t.tbl_version_path.tbl_id with
      | none => .error ("group_by(): " ++ t.name ++ " is not a base table of " ++ df.tbl.tbl_name)
      | some b =>
        if b.id = df.tbl.tbl_id then
          .error ("group_by(): " ++ t.name ++ " is not a base table of " ++ df.tbl.tbl_name)
        else .ok (some t.tbl_version_path.tbl_version)
  | .exprA _ :: rest => DataFrame.group_by_scan df n_items rest

def GroupByArg.toExpr : GroupByArg → Option Expr
  | .tableA _ => none
  | .exprA e => some e

/-- `DataFrame.group_by` (src/pixeltable/dataframe.py:526-558): fails if a group-by
clause is already set; either a single grouping-table reference or an explicit
expression list. -/
def DataFrame.group_by (df : DataFrame) (grouping_items : List GroupByArg) :
    Except String DataFrame :=
  if df.group_by_clause.isSome then .error "Group-by already specified"
  else
    match DataFrame.group_by_scan df grouping_items.length grouping_items with
    | .error msg => .error msg
    | .ok (some gt) =>
      .ok { df with group_by_clause := none, grouping_tbl := some gt }
    | .ok none =>
      .ok { df with group_by_clause := some (grouping_items.filterMap GroupByArg.toExpr),
                    grouping_tbl := none }

/-- `DataFrame.order_by` (src/pixeltable/dataframe.py:560-574).  The source binds
`order_by_clause` to the receiver's own list when one exists (an alias, not a copy) and
calls `extend` on it, so the receiver's list is mutated in place; the result DataFrame
deep-copies the extended list.  The first component of the result is the receiver after
the call, the second is the returned DataFrame. -/
def DataFrame.order_by (df : DataFrame) (expr_list : List Expr) (asc : Bool) :
    DataFrame × DataFrame :=
  let extended := (df.order_by_clause.getD []) ++ expr_list.map (fun e => (e.copy, asc))
  let receiver := match df.order_by_clause with
    | some _ => { df with order_by_clause := some extended }
    | none => df
  (receiver, { df with order_by_clause := some extended })

/-- `DataFrame.limit` (src/pixeltable/dataframe.py:576-587): later calls overwrite. -/
def DataFrame.limit (df : DataFrame) (n : Int) : DataFrame :=
  { df with limit_val := some n }

/-- Modelled from the spec: `Expr.list_subexprs(..., expr_class=Variable)` — the
`(name, declared type)` of every Variable occurrence in an expression tree, in
traversal order. -/
def Expr.varOccs : Expr → List (String × PxType)
  | .var n t => [(n, t)]
  | .lit _ _ => []
  | .colRef _ _ => []
  | .binop _ l r _ => l.varOccs ++ r.varOccs

/-- The expression trees scanned by `DataFrame._vars` (src/pixeltable/dataframe.py:229-237):
select-list expressions, the where clause, group-by expressions, order-by expressions —
flattened to their Variable occurrences. -/
def DataFrame.allVarOccs (df : DataFrame) : List (String × PxType) :=
  ((df.select_list_exprs ++ df.where_clause.toList ++ (df.group_by_clause.getD []) ++
    ((df.order_by_clause.getD []).map Prod.fst)).map Expr.varOccs).flatten

/-- The deduplication loop of `DataFrame._vars` (src/pixeltable/dataframe.py:238-245):
keep the first Variable per name; a name reused with a different declared type is an
error. -/
def collectVars (acc : List (String × PxType)) :
    List (String × PxType) → Except String (List (String × PxType))
  | [] => .ok acc
  | (n, t) :: rest =>
    match lookupStr acc n with
    | none => collectVars (acc ++ [(n, t)]) rest
    | some t0 =>
      if t0 ≠ t then .error ("Multiple definitions of parameter " ++ n)
      else collectVars acc rest

/-- `DataFrame._vars` (src/pixeltable/dataframe.py:225-245). -/
def DataFrame.vars (df : DataFrame) : Except String (List (String × PxType)) :=
  collectVars [] df.allVarOccs

/-- `DataFrame.parameters` (src/pixeltable/dataframe.py:247-253): the name→type map of
the collected Variables. -/
def DataFrame.parameters (df : DataFrame) : Except String (List (String × PxType)) :=
  df.vars

/-- The names of the free variables of the DataFrame. -/
def DataFrame.varNames (df : DataFrame) : List String :=
  df.allVarOccs.map Prod.fst

/-- Modelled from the spec: `Expr.substitute` — replace every subtree equal to a key of
the mapping by the corresponding value, recursing into components otherwise. -/
def Expr.substitute (var_exprs : List (Expr × Expr)) : Expr → Expr
  | .binop op l r t =>
    match var_exprs.find? (fun p => p.1 == Expr.binop op l r t) with
    | some p => p.2
    | none => .binop op (l.substitute var_exprs) (r.substitute var_exprs) t
  | e =>
    match var_exprs.find? (fun p => p.1 == e) with
    | some p => p.2
    | none => e

/-- The `var_exprs` construction of `bind` (src/pixeltable/dataframe.py:334-344):
arguments naming no variable are skipped; a value that cannot convert to an expression
is an error; otherwise map the Variable to the converted literal. -/
def buildVarExprs (vars : List (String × PxType)) :
    List (String × PxVal) → Except String (List (Expr × Expr))
  | [] => .ok []
  | (arg_name, arg_val) :: rest =>
    match lookupStr vars arg_name with
    | none => buildVarExprs vars rest
    | some t =>
      match Expr.from_object arg_val with
      | none => .error ("Cannot convert argument to a Pixeltable expression")
      | some arg_expr =>
        match buildVarExprs vars rest with
        | .error msg => .error msg
        | .ok m => .ok ((Expr.var arg_name t, arg_expr) :: m)

/-- `DataFrame.bind` (src/pixeltable/dataframe.py:325-364): substitute the bound
Variables by literals in deep copies of all expression trees and return a new
DataFrame; the new select list pairs the substituted expressions with the schema
names. -/
def DataFrame.bind (df : DataFrame) (args : List (String × PxVal)) :
    Except String DataFrame :=
  match df.vars with
  | .error msg => .error msg
  | .ok vars =>
    match buildVarExprs vars args with
    | .error msg => .error msg
    | .ok var_exprs =>
      let select_list_exprs := df.select_list_exprs.map (Expr.substitute var_exprs)
      let where_clause := df.where_clause.map (Expr.substitute var_exprs)
      let group_by_clause := df.group_by_clause.map (List.map (Expr.substitute var_exprs))
      let order_by_clause := df.order_by_clause.map
        (List.map (fun p => (Expr.substitute var_exprs p.1, p.2)))
      let select_list := (select_list_exprs.zip df.schema_keys).map (fun p => (p.1, some p.2))
      .ok ⟨df.tbl, some select_list, where_clause, group_by_clause, df.grouping_tbl,
        order_by_clause, df.limit_val⟩

/-- Modelled from the spec: the structured, self-describing serialized form of an
expression (`Expr.as_dict`). -/
inductive ExprDict where
  | variableD (name : String) (ty : PxType)
  | literalD (v : PxVal) (ty : PxType)
  | columnRefD (name : String) (ty : PxType)
  | binopD (op : String) (l : ExprDict) (r : ExprDict) (ty : PxType)
deriving DecidableEq

def Expr.as_dict : Expr → ExprDict
  | .var n t => .variableD n t
  | .lit v t => .literalD v t
  | .colRef n t => .columnRefD n t
  | .binop op l r t => .binopD op l.as_dict r.as_dict t

def Expr.from_dict : ExprDict → Option Expr
  | .variableD n t => some (.var n t)
  | .literalD v t => some (.lit v t)
  | .columnRefD n t => some (.colRef n t)
  | .binopD op l r t =>
    match Expr.from_dict l, Expr.from_dict r with
    | some l', some r' => some (.binop op l' r' t)
    | _, _ => none

/-- Modelled from the spec: the serialized form of a Column. -/
structure ColumnDict where
  name : String
  col_type : PxType
  nullable : Bool
  stored : Bool
  is_computed : Bool
  value_expr : Option ExprDict
deriving DecidableEq

def Column.as_dict (c : Column) : ColumnDict :=
  ⟨c.name, c.col_type, c.nullable, c.stored, c.is_computed, c.value_expr.map Expr.as_dict⟩

def Column.from_dict (d : ColumnDict) : Option Column :=
  match d.value_expr with
  | none => some ⟨d.name, d.col_type, d.nullable, d.stored, d.is_computed, none⟩
  | some ed =>
    match Expr.from_dict ed with
    | none => none
    | some e => some ⟨d.name, d.col_type, d.nullable, d.stored, d.is_computed, some e⟩

/-- Modelled from the spec: the serialized form of a TableVersion. -/
structure TableVersionDict where
  id : Nat
  name : String
  version : Nat
  is_snapshot : Bool
  columns : List ColumnDict
deriving DecidableEq

def TableVersion.as_dict (tv : TableVersion) : TableVersionDict :=
  ⟨tv.id, tv.name, tv.version, tv.is_snapshot, tv.columns.map Column.as_dict⟩

/-- Decode a serialized column list, failing if any entry fails. -/
def decodeColumns : List ColumnDict → Option (List Column)
  | [] => some []
  | d :: rest =>
    match Column.from_dict d, decodeColumns rest with
    | some c, some cs => some (c :: cs)
    | _, _ => none

def TableVersion.from_dict (d : TableVersionDict) : Option TableVersion :=
  match decodeColumns d.columns with
  | none => none
  | some cols => some ⟨d.id, d.name, d.version, d.is_snapshot, cols⟩

/-- Modelled from the spec: the serialized form of a TableVersionPath. -/
inductive TableVersionPathDict where
  | rootD (tv : TableVersionDict)
  | consD (tv : TableVersionDict) (base : TableVersionPathDict)
deriving DecidableEq

def TableVersionPath.as_dict : TableVersionPath → TableVersionPathDict
  | .root tv => .rootD tv.as_dict
  | .cons tv b => .consD tv.as_dict b.as_dict

def TableVersionPath.from_dict : TableVersionPathDict → Option TableVersionPath
  | .rootD d =>
    match TableVersion.from_dict d with
    | none => none
    | some tv => some (.root tv)
  | .consD d bd =>
    match TableVersion.from_dict d, TableVersionPath.from_dict bd with
    | some tv, some b => some (.cons tv b)
    | _, _ => none

/-- The dictionary `DataFrame.as_dict` produces (src/pixeltable/dataframe.py:622-641). -/
structure DataFrameDict where
  classname : String
  tbl : TableVersionPathDict
  select_list : Option (List (ExprDict × Option String))
  where_clause : Option ExprDict
  group_by_clause : Option (List ExprDict)
  grouping_tbl : Option TableVersionDict
  order_by_clause : Option (List (ExprDict × Bool))
  limit_val : Option Int
deriving DecidableEq

def DataFrame.as_dict (df : DataFrame) : DataFrameDict :=
  ⟨"DataFrame", df.tbl.as_dict,
    df.select_list.map (List.map (fun p => (p.1.as_dict, p.2))),
    df.where_clause.map Expr.as_dict,
    df.group_by_clause.map (List.map Expr.as_dict),
    df.grouping_tbl.map TableVersion.as_dict,
    df.order_by_clause.map (List.map (fun p => (p.1.as_dict, p.2))),
    df.limit_val⟩

/-- The representation checks of the DataFrame constructor
(src/pixeltable/dataframe.py:147-160): a present select list is non-empty and its user
names are valid identifiers; explicit group-by expressions and a grouping table are
mutually exclusive. -/
def DataFrame.check_rep (select_list : Option (List (Expr × Option String)))
    (group_by_clause : Option (List Expr)) (grouping_tbl : Option TableVersion) : Bool :=
  (match select_list with
   | none => true
   | some l => !l.isEmpty && l.all (fun p =>
      match p.2 with
      | none => true
      | some n => is_valid_identifier n)) &&
  (group_by_clause.isNone || grouping_tbl.isNone)

/-- Decode a serialized select list (one `Expr.from_dict` per entry, keeping names). -/
def decodeSelectList : List (ExprDict × Option String) → Option (List (Expr × Option String))
  | [] => some []
  | p :: rest =>
    match Expr.from_dict p.1, decodeSelectList rest with
    | some e, some l => some ((e, p.2) :: l)
    | _, _ => none

/-- Decode a serialized expression list. -/
def decodeExprs : List ExprDict → Option (List Expr)
  | [] => some []
  | d :: rest =>
    match Expr.from_dict d, decodeExprs rest with
    | some e, some l => some (e :: l)
    | _, _ => none

/-- Decode a serialized order-by list (one `Expr.from_dict` per entry, keeping flags). -/
def decodeOrderBy : List (ExprDict × Bool) → Option (List (Expr × Bool))
  | [] => some []
  | p :: rest =>
    match Expr.from_dict p.1, decodeOrderBy rest with
    | some e, some l => some ((e, p.2) :: l)
    | _, _ => none

/-- `DataFrame.from_dict` (src/pixeltable/dataframe.py:643-659): decode every
component and rebuild the DataFrame through the constructor (whose assertions are
modelled by `check_rep`). -/
def DataFrame.from_dict (d : DataFrameDict) : Option DataFrame :=
  match TableVersionPath.from_dict d.tbl with
  | none => none
  | some tbl =>
    let select_listO : Option (Option (List (Expr × Option String))) :=
      match d.select_list with
      | none => some none
      | some l => (decodeSelectList l).map some
    let whereO : Option (Option Expr) :=
      match d.where_clause with
      | none => some none
      | some ed => (Expr.from_dict ed).map some
    let groupByO : Option (Option (List Expr)) :=
      match d.group_by_clause with
      | none => some none
      | some l => (decodeExprs l).map some
    let groupingO : Option (Option TableVersion) :=
      match d.grouping_tbl with
      | none => some none
      | some td => (TableVersion.from_dict td).map some
    let orderByO : Option (Option (List (Expr × Bool))) :=
      match d.order_by_clause with
      | none => some none
      | some l => (decodeOrderBy l).map some
    match select_listO, whereO, groupByO, groupingO, orderByO with
    | some sl, some wc, some gb, some gt, some ob =>
      if DataFrame.check_rep sl gb gt then
        some ⟨tbl, sl, wc, gb, gt, ob, d.limit_val⟩
      else none
    | _, _, _, _, _ => none

/-- A concrete base table path used to evaluate the creation operations. -/
def exBase : TableVersionPath :=
  .root ⟨1, "base", 0, false, [⟨"c1", PxType.intT, true, true, false, none⟩]⟩

/-- A concrete catalog state in which the base table with id 1 is registered. -/
def exSt : PxState := ⟨[], [(1, [])], [], [], []⟩

/-- A concrete row-generating iterator. -/
def exIt : IteratorCls := ⟨"m.It", [("n", PxType.intT)], [("frame", PxType.intT)], []⟩

def exArgs : List (String × PxVal) := [("n", PxVal.intV 3)]

/-- The TableVersion created for the concrete component view. -/
def exItTv : TableVersion :=
  ⟨7, "", 0, false,
    [⟨POS_COLUMN_NAME, PxType.intT, true, false, false, none⟩,
     ⟨"frame", PxType.intT, true, true, false, none⟩]⟩

def exView7 : ViewObj := ⟨7, 0, "v", .cons exItTv exBase, 1, false⟩

def exMd7 : ViewMd := ⟨false, none, [(1, none)], some "m.It", some exArgs⟩

def exSt7 : PxState := ⟨[(7, exView7)], [(1, [7]), (7, [])], [], [(7, exMd7)], [7]⟩

/-- A concrete DataFrame with a free variable `x` in its select list and where clause. -/
def exDf : DataFrame :=
  ⟨exBase, some [(Expr.var "x" PxType.boolT, some "c")],
    some (Expr.var "x" PxType.boolT), none, none, none, none⟩

/-- A concrete DataFrame reusing the name `x` with two different declared types. -/
def exDfConflict : DataFrame :=
  ⟨exBase, some [(Expr.var "x" PxType.boolT, some "c")],
    some (Expr.var "x" PxType.intT), none, none, none, none⟩

/-- The DataFrame produced by binding `x := True` in `exDf`. -/
def exDfBound : DataFrame :=
  ⟨exBase, some [(Expr.lit (PxVal.boolV true) PxType.boolT, some "c")],
    some (Expr.lit (PxVal.boolV true) PxType.boolT), none, none, none, none⟩

/-! ### Theorems -/

theorem is_snapshot_eq_all (p : TableVersionPath) :
    p.is_snapshot = p.get_tbl_versions.all TableVersion.is_snapshot := by
  induction p with
  | root tv => simp [TableVersionPath.is_snapshot, TableVersionPath.get_tbl_versions]
  | cons tv b ih =>
    simp [TableVersionPath.is_snapshot, TableVersionPath.get_tbl_versions, ih]

theorem map_snapF_of_all_snapshot (l : List TableVersion)
    (h : l.all TableVersion.is_snapshot = true) :
    l.map (fun tv => if tv.is_snapshot then tv else tv.create_snapshot_copy) = l := by
  induction l with
  | nil => rfl
  | cons tv rest ih =>
    simp only [List.all_cons, Bool.and_eq_true] at h
    simp [h.1, ih h.2]

theorem get_snapshot_path_versions (p : TableVersionPath) :
    (View.get_snapshot_path p).get_tbl_versions =
      p.get_tbl_versions.map (fun tv => if tv.is_snapshot then tv else tv.create_snapshot_copy) := by
  induction p with
  | root tv =>
    by_cases h : tv.is_snapshot
    · simp [View.get_snapshot_path, TableVersionPath.is_snapshot, h,
        TableVersionPath.get_tbl_versions]
    · simp [View.get_snapshot_path, TableVersionPath.is_snapshot, h,
        TableVersionPath.get_tbl_versions]
  | cons tv b ih =>
    by_cases h : (TableVersionPath.cons tv b).is_snapshot
    · rw [View.get_snapshot_path, if_pos h]
      have h' := h
      simp only [TableVersionPath.is_snapshot, Bool.and_eq_true] at h'
      rw [TableVersionPath.get_tbl_versions, List.map_cons, if_pos h'.1]
      rw [is_snapshot_eq_all] at h'
      rw [map_snapF_of_all_snapshot _ h'.2]
    · rw [View.get_snapshot_path, if_neg h]
      simp only [TableVersionPath.get_tbl_versions, List.map_cons, ih]

theorem get_snapshot_path_identity (p : TableVersionPath) (h : p.is_snapshot = true) :
    View.get_snapshot_path p = p := by
  cases p with
  | root tv => rw [View.get_snapshot_path, if_pos h]
  | cons tv b => rw [View.get_snapshot_path, if_pos h]

/-- C3: `View._get_snapshot_path` rebuilds the chain pointwise — every version of the
result is a snapshot version (non-snapshot ancestors are replaced by their snapshot
copy, snapshot ancestors are kept as-is), the chain keeps its length and table order,
an already-snapshot path is returned unchanged, the resulting path satisfies
`is_snapshot()`, and `is_snapshot()` holds iff every TableVersion in the chain is a
snapshot version. -/
theorem c3_get_snapshot_path_spec (p : TableVersionPath) :
    (View.get_snapshot_path p).get_tbl_versions =
      p.get_tbl_versions.map (fun tv => if tv.is_snapshot then tv else tv.create_snapshot_copy) ∧
    (∀ tv ∈ (View.get_snapshot_path p).get_tbl_versions, tv.is_snapshot = true) ∧
    (View.get_snapshot_path p).get_tbl_versions.length = p.get_tbl_versions.length ∧
    (View.get_snapshot_path p).get_tbl_versions.map TableVersion.id =
      p.get_tbl_versions.map TableVersion.id ∧
    (p.is_snapshot = true → View.get_snapshot_path p = p) ∧
    (View.get_snapshot_path p).is_snapshot = true ∧
    ((View.get_snapshot_path p).is_snapshot =
      (View.get_snapshot_path p).get_tbl_versions.all TableVersion.is_snapshot) := by
  have hvers := get_snapshot_path_versions p
  have hall : ∀ tv ∈ (View.get_snapshot_path p).get_tbl_versions, tv.is_snapshot = true := by
    intro tv htv
    rw [hvers] at htv
    obtain ⟨tv0, _, rfl⟩ := List.mem_map.mp htv
    by_cases h0 : tv0.is_snapshot
    · simp [h0]
    · simp [h0, TableVersion.create_snapshot_copy]
  refine ⟨hvers, hall, ?_, ?_, get_snapshot_path_identity p, ?_, is_snapshot_eq_all _⟩
  · rw [hvers, List.length_map]
  · rw [hvers, List.map_map]
    refine List.map_congr_left ?_
    intro tv _
    by_cases h0 : tv.is_snapshot <;> simp [h0, TableVersion.create_snapshot_copy]
  · rw [is_snapshot_eq_all]
    exact List.all_eq_true.mpr (fun tv htv => by simpa using hall tv htv)

theorem c3_get_snapshot_path_spec_witness :
    (TableVersionPath.root ⟨1, "t", 3, true, []⟩).is_snapshot = true ∧
    View.get_snapshot_path (TableVersionPath.root ⟨1, "t", 3, true, []⟩) =
      TableVersionPath.root ⟨1, "t", 3, true, []⟩ := by
  refine ⟨rfl, ?_⟩
  exact (c3_get_snapshot_path_spec (TableVersionPath.root ⟨1, "t", 3, true, []⟩)).2.2.2.2.1 rfl

/-- C2: `View.insert` and `View.delete` fail unconditionally with a descriptive error
and leave the state (rows, versions, catalog) untouched, for every view and every
argument combination. -/
theorem c2_view_insert_delete_always_fail (st : PxState) (v : ViewObj)
    (rows : List (List (String × PxVal))) (whereClause : Option Expr) :
    View.insert st v rows = (st, .error ("view " ++ v.name ++ ": cannot insert into view")) ∧
    View.delete st v whereClause =
      (st, .error ("view " ++ v.name ++ ": cannot delete from view")) :=
  ⟨rfl, rfl⟩

/-- C1 (code bug): calling `order_by` on a DataFrame whose order-by list is already
non-empty extends the receiver's own list in place (src/pixeltable/dataframe.py:564-565
aliases `self.order_by_clause` and calls `extend` on it), so the receiver is NOT left
unchanged: at this concrete input the receiver's order-by list grows from one entry to
two. -/
theorem c1_order_by_mutates_receiver :
    (DataFrame.order_by
        ⟨TableVersionPath.root ⟨1, "t", 0, false, []⟩, none, none, none, none,
          some [(Expr.colRef "c2" PxType.intT, true)], none⟩
        [Expr.colRef "c3" PxType.intT] true).1.order_by_clause =
      some [(Expr.colRef "c2" PxType.intT, true), (Expr.colRef "c3" PxType.intT, true)] ∧
    (DataFrame.order_by
        ⟨TableVersionPath.root ⟨1, "t", 0, false, []⟩, none, none, none, none,
          some [(Expr.colRef "c2" PxType.intT, true)], none⟩
        [Expr.colRef "c3" PxType.intT] true).1 ≠
      ⟨TableVersionPath.root ⟨1, "t", 0, false, []⟩, none, none, none, none,
        some [(Expr.colRef "c2" PxType.intT, true)], none⟩ := by
  exact ⟨rfl, by decide⟩

/-- C10 (counterexample): an empty `select()` on a DataFrame whose select list is
already set raises `Select list already specified` (the already-specified check at
src/pixeltable/dataframe.py:465 precedes the empty-argument identity return at line
471), contradicting the claim that an empty select never raises. -/
theorem c10_empty_select_fails_when_select_set :
    DataFrame.select
      ⟨TableVersionPath.root ⟨1, "t", 0, false, []⟩,
        some [(Expr.colRef "c1" PxType.intT, none)], none, none, none, none, none⟩
      [] [] = .error "Select list already specified" := rfl

/-- C10 (amended): an empty `select()` returns the receiver itself, without error,
exactly when no select list is set; when a select list is already set, every `select`
call — even an empty one — fails with `Select list already specified`. -/
theorem c10_empty_select_amended (df : DataFrame) :
    (df.select_list = none → DataFrame.select df [] [] = .ok df) ∧
    (df.select_list.isSome = true →
      DataFrame.select df [] [] = .error "Select list already specified") := by
  constructor
  · intro h
    simp [DataFrame.select, h, List.find?]
  · intro h
    simp [DataFrame.select, h]

theorem c10_empty_select_amended_witness :
    DataFrame.select
      ⟨TableVersionPath.root ⟨1, "t", 0, false, []⟩, none, none, none, none, none, none⟩
      [] [] =
      .ok ⟨TableVersionPath.root ⟨1, "t", 0, false, []⟩, none, none, none, none, none, none⟩ ∧
    DataFrame.select
      ⟨TableVersionPath.root ⟨1, "t", 0, false, []⟩,
        some [(Expr.colRef "c1" PxType.intT, none)], none, none, none, none, none⟩
      [] [] = .error "Select list already specified" :=
  ⟨(c10_empty_select_amended _).1 rfl, (c10_empty_select_amended _).2 rfl⟩

theorem dictGet_dictSet_self {α : Type} (m : List (Nat × α)) (k : Nat) (v : α) :
    dictGet (dictSet m k v) k = some v := by
  induction m with
  | nil => simp [dictGet, dictSet]
  | cons p rest ih =>
    obtain ⟨a, b⟩ := p
    by_cases h : a = k
    · simp [dictSet, dictGet, h]
    · simp only [dictSet, dictGet, h, if_false]
      rw [if_neg (fun hk => h hk.symm)]
      exact ih

theorem dictGet_dictSet_ne {α : Type} (m : List (Nat × α)) (k k' : Nat) (v : α)
    (h : k' ≠ k) : dictGet (dictSet m k v) k' = dictGet m k' := by
  induction m with
  | nil => simp [dictGet, dictSet, h]
  | cons p rest ih =>
    obtain ⟨a, b⟩ := p
    by_cases h0 : a = k
    · subst h0
      simp [dictSet, dictGet, if_neg h]
    · simp only [dictSet, h0, if_false, dictGet]
      by_cases h1 : k' = a
      · simp [h1]
      · simp [h1, ih]

theorem dictGet_dictErase_self {α : Type} (m : List (Nat × α)) (k : Nat)
    (hnodup : (m.map Prod.fst).Nodup) : dictGet (dictErase m k) k = none := by
  induction m with
  | nil => simp [dictGet, dictErase]
  | cons p rest ih =>
    obtain ⟨a, b⟩ := p
    simp only [List.map_cons, List.nodup_cons] at hnodup
    by_cases h0 : a = k
    · rw [dictErase, if_pos h0]
      subst h0
      have hnotin : a ∉ rest.map Prod.fst := hnodup.1
      clear ih hnodup
      induction rest with
      | nil => simp [dictGet]
      | cons q rest2 ih2 =>
        obtain ⟨c, d⟩ := q
        simp only [List.map_cons, List.mem_cons] at hnotin
        rw [dictGet, if_neg (fun hk => hnotin (Or.inl hk))]
        exact ih2 (fun hmem => hnotin (Or.inr hmem))
    · rw [dictErase, if_neg h0, dictGet, if_neg (fun hk => h0 hk.symm)]
      exact ih hnodup.2

theorem dictGet_dictErase_ne {α : Type} (m : List (Nat × α)) (k k' : Nat) (h : k' ≠ k) :
    dictGet (dictErase m k) k' = dictGet m k' := by
  induction m with
  | nil => simp [dictErase]
  | cons p rest ih =>
    obtain ⟨a, b⟩ := p
    by_cases h0 : a = k
    · rw [dictErase, if_pos h0, dictGet, if_neg (fun hk => h (hk.trans h0))]
    · rw [dictErase, if_neg h0, dictGet, dictGet]
      by_cases h1 : k' = a
      · simp [h1]
      · simp [h1, ih]

theorem tv_create_tbl_dependents (st : PxState) (nid : Nat) (cols : List Column)
    (md : ViewMd) : (TableVersion.create st nid cols md).1.tbl_dependents = st.tbl_dependents := by
  unfold TableVersion.create
  split <;> rfl

theorem tv_create_snd_of_nonempty (st : PxState) (nid : Nat) (cols : List Column)
    (md : ViewMd) (h : cols.isEmpty = false) :
    (TableVersion.create st nid cols md).2 = some ⟨nid, "", 0, md.is_snapshot, cols⟩ := by
  unfold TableVersion.create
  simp [h]

theorem retarget_value_expr_id (p : TableVersionPath) (c : Column) :
    Column.retarget_value_expr p c = c := by
  cases c with
  | mk n t nu s ic ve => cases ve <;> rfl

theorem map_retarget_id (p : TableVersionPath) (cols : List Column) :
    cols.map (Column.retarget_value_expr p) = cols := by
  induction cols with
  | nil => rfl
  | cons c rest ih => simp [retarget_value_expr_id, ih]

theorem finish_create_registration (base : TableVersionPath) (dir_id : Nat)
    (name : String) (bvp : TableVersionPath) (new_id : Nat) (st1 : PxState)
    (tv_opt : Option TableVersion) (st' : PxState) (v : ViewObj) (bl0 : List Nat)
    (h_base : dictGet st1.tbl_dependents base.tbl_id = some bl0)
    (h_ne : new_id ≠ base.tbl_id)
    (h_run : View.finish_create base dir_id name bvp new_id st1 tv_opt = .ok (st', v)) :
    v.id = new_id ∧
    dictGet st'.tbl_dependents new_id = some [] ∧
    dictGet st'.tbl_dependents base.tbl_id = some (bl0 ++ [new_id]) ∧
    dictGet st'.tbls new_id = some v := by
  unfold View.finish_create at h_run
  rw [h_base] at h_run
  simp only [Option.isNone_some, Bool.false_eq_true, if_false] at h_run
  have hviewid : (match tv_opt with
      | none => (⟨new_id, dir_id, name, bvp, base.tbl_id, true⟩ : ViewObj)
      | some tv => ⟨new_id, dir_id, name, .cons tv bvp, base.tbl_id, false⟩).id = new_id := by
    cases tv_opt <;> rfl
  set view := (match tv_opt with
      | none => (⟨new_id, dir_id, name, bvp, base.tbl_id, true⟩ : ViewObj)
      | some tv => ⟨new_id, dir_id, name, .cons tv bvp, base.tbl_id, false⟩) with hview
  rw [hviewid] at h_run
  have hget1 : dictGet (dictSet st1.tbl_dependents new_id []) base.tbl_id = some bl0 := by
    rw [dictGet_dictSet_ne _ _ _ _ (fun hk => h_ne hk.symm)]
    exact h_base
  rw [hget1] at h_run
  simp only [Except.ok.injEq, Prod.mk.injEq] at h_run
  obtain ⟨hst', hv⟩ := h_run
  subst hst'
  refine ⟨by rw [← hv, hviewid], ?_, ?_, ?_⟩
  · rw [show (({ st1 with
        tbl_dependents := dictSet (dictSet st1.tbl_dependents new_id []) base.tbl_id (bl0 ++ [new_id]),
        tbls := dictSet st1.tbls new_id view } : PxState)).tbl_dependents =
        dictSet (dictSet st1.tbl_dependents new_id []) base.tbl_id (bl0 ++ [new_id]) from rfl]
    rw [dictGet_dictSet_ne _ _ _ _ h_ne, dictGet_dictSet_self]
  · rw [show (({ st1 with
        tbl_dependents := dictSet (dictSet st1.tbl_dependents new_id []) base.tbl_id (bl0 ++ [new_id]),
        tbls := dictSet st1.tbls new_id view } : PxState)).tbl_dependents =
        dictSet (dictSet st1.tbl_dependents new_id []) base.tbl_id (bl0 ++ [new_id]) from rfl]
    rw [dictGet_dictSet_self]
  · rw [show (({ st1 with
        tbl_dependents := dictSet (dictSet st1.tbl_dependents new_id []) base.tbl_id (bl0 ++ [new_id]),
        tbls := dictSet st1.tbls new_id view } : PxState)).tbls =
        dictSet st1.tbls new_id view from rfl]
    rw [dictGet_dictSet_self, hv]

/-- C4: immediately after every successful view creation, the Catalog maps the new view
id to an empty dependents list, the new view is appended exactly once to
`tbl_dependents[base_id]` of its direct base, and `tbls` maps the new view's id to the
view object. -/
theorem c4_create_registers_view (st : PxState) (dir_id : Nat) (name : String)
    (base : TableVersionPath) (additional_columns : List Column) (predicate : Option Expr)
    (is_snapshot : Bool) (iterator : Option (IteratorCls × List (String × PxVal)))
    (new_id : Nat) (st' : PxState) (v : ViewObj) (bl0 : List Nat)
    (h_base : dictGet st.tbl_dependents base.tbl_id = some bl0)
    (h_ne : new_id ≠ base.tbl_id)
    (h_run : View.create st dir_id name base additional_columns predicate is_snapshot
      iterator new_id = (st', .ok v)) :
    v.id = new_id ∧
    dictGet st'.tbl_dependents v.id = some [] ∧
    dictGet st'.tbl_dependents base.tbl_id = some (bl0 ++ [v.id]) ∧
    dictGet st'.tbls v.id = some v ∧
    (new_id ∉ bl0 → (bl0 ++ [v.id]).count v.id = 1) := by
  unfold View.create at h_run
  cases hcore : View.createCore st dir_id name base additional_columns predicate
      is_snapshot iterator new_id with
  | error msg =>
    rw [hcore] at h_run
    simp only [Prod.mk.injEq] at h_run
    exact absurd h_run.2 (by simp)
  | ok p =>
    obtain ⟨st1, view⟩ := p
    rw [hcore] at h_run
    simp only [Prod.mk.injEq, Except.ok.injEq] at h_run
    obtain ⟨hst, hv⟩ := h_run
    subst hst
    subst hv
    simp only [View.createCore] at hcore
    cases hvs : View.verify_schema (Table.create_columns additional_columns) with
    | error msg => rw [hvs] at hcore; exact absurd hcore (by simp)
    | ok u =>
      rw [hvs] at hcore
      cases hcp : View.check_predicate base predicate with
      | error msg => rw [hcp] at hcore; exact absurd hcore (by simp)
      | ok predicate1 =>
        rw [hcp] at hcore
        cases hcv : View.check_value_exprs_bound base (Table.create_columns additional_columns) with
        | error msg => rw [hcv] at hcore; exact absurd hcore (by simp)
        | ok u2 =>
          rw [hcv] at hcore
          cases hbc : View.build_columns_with_iterator (Table.create_columns additional_columns)
              iterator with
          | error msg => rw [hbc] at hcore; exact absurd hcore (by simp)
          | ok columns1 =>
            rw [hbc] at hcore
            simp only [View.create_session] at hcore
            have hreg := finish_create_registration _ _ _ _ _ _ _ _ _ _
              (by rw [tv_create_tbl_dependents]; exact h_base) h_ne hcore
            obtain ⟨hid, hdep_self, hdep_base, htbls⟩ := hreg
            refine ⟨hid, by rw [hid]; exact hdep_self, by rw [hid]; exact hdep_base,
              by rw [hid]; exact htbls, ?_⟩
            intro hnotin
            rw [hid, List.count_append, List.count_eq_zero.mpr hnotin]
            simp

theorem c4_create_registers_view_witness :
    dictGet (⟨[(7, ⟨7, 0, "v",
        TableVersionPath.root ⟨1, "base", 2, true, [⟨"c1", PxType.intT, true, true, false, none⟩]⟩,
        1, true⟩)],
      [(1, [7]), (7, [])], [],
      [(7, ⟨true, none, [(1, some 2)], none, none⟩)], []⟩ : PxState).tbl_dependents 7 = some [] ∧
    dictGet (⟨[(7, ⟨7, 0, "v",
        TableVersionPath.root ⟨1, "base", 2, true, [⟨"c1", PxType.intT, true, true, false, none⟩]⟩,
        1, true⟩)],
      [(1, [7]), (7, [])], [],
      [(7, ⟨true, none, [(1, some 2)], none, none⟩)], []⟩ : PxState).tbl_dependents 1 =
      some ([] ++ [7]) ∧
    ([] ++ [7] : List Nat).count 7 = 1 := by
  have h := c4_create_registers_view ⟨[], [(1, [])], [], [], []⟩ 0 "v"
    (TableVersionPath.root ⟨1, "base", 2, false, [⟨"c1", PxType.intT, true, true, false, none⟩]⟩)
    [] none true none 7
    (⟨[(7, ⟨7, 0, "v",
        TableVersionPath.root ⟨1, "base", 2, true, [⟨"c1", PxType.intT, true, true, false, none⟩]⟩,
        1, true⟩)],
      [(1, [7]), (7, [])], [],
      [(7, ⟨true, none, [(1, some 2)], none, none⟩)], []⟩ : PxState)
    ⟨7, 0, "v",
      TableVersionPath.root ⟨1, "base", 2, true, [⟨"c1", PxType.intT, true, true, false, none⟩]⟩,
      1, true⟩
    [] rfl (by decide) rfl
  exact ⟨h.2.1, h.2.2.1, h.2.2.2.2 (by decide)⟩

theorem verify_schema_go_error_of_bad (cols : List Column)
    (h : ∃ c ∈ cols, c.nullable = false ∧ c.is_computed = false) :
    ∀ seen, ∃ msg, View.verify_schema_go cols seen = .error msg := by
  induction cols with
  | nil => simp at h
  | cons c rest ih =>
    intro seen
    obtain ⟨c0, hc0mem, hbad⟩ := h
    rcases List.mem_cons.mp hc0mem with rfl | hmem
    · refine ⟨"Column " ++ c0.name ++ ": non-computed columns in views must be nullable", ?_⟩
      simp [View.verify_schema_go, View.verify_column, hbad.1, hbad.2]
    · cases hvc : View.verify_column c seen with
      | error msg => exact ⟨msg, by simp [View.verify_schema_go, hvc]⟩
      | ok u =>
        obtain ⟨msg, hmsg⟩ := ih ⟨c0, hmem, hbad⟩ (seen ++ [c.name])
        exact ⟨msg, by simp [View.verify_schema_go, hvc, hmsg]⟩

theorem check_value_exprs_error_of_bad (base : TableVersionPath) (cols : List Column)
    (h : ∃ c ∈ cols, c.is_computed = true ∧
      ∃ ve, c.value_expr = some ve ∧ ve.is_bound_by base = false) :
    ∃ msg, View.check_value_exprs_bound base cols = .error msg := by
  induction cols with
  | nil => simp at h
  | cons c rest ih =>
    obtain ⟨c0, hc0mem, hcomp, ve, hve, hnb⟩ := h
    rcases List.mem_cons.mp hc0mem with rfl | hmem
    · refine ⟨"Column " ++ c0.name ++
        ": value expression cannot be computed in the context of the base " ++ base.tbl_name, ?_⟩
      simp [View.check_value_exprs_bound, hcomp, hve, hnb]
    · obtain ⟨msg, hmsg⟩ := ih ⟨c0, hmem, hcomp, ve, hve, hnb⟩
      cases hic : c.is_computed with
      | false => exact ⟨msg, by simp [View.check_value_exprs_bound, hic, hmsg]⟩
      | true =>
        cases hvee : c.value_expr with
        | none => exact ⟨msg, by simp [View.check_value_exprs_bound, hic, hvee, hmsg]⟩
        | some ve2 =>
          cases hb : ve2.is_bound_by base with
          | true => exact ⟨msg, by simp [View.check_value_exprs_bound, hic, hvee, hb, hmsg]⟩
          | false =>
            refine ⟨"Column " ++ c.name ++
              ": value expression cannot be computed in the context of the base " ++
              base.tbl_name, ?_⟩
            simp [View.check_value_exprs_bound, hic, hvee, hb]

/-- C6: view creation fails before any catalog mutation whenever an additional
non-computed column is non-nullable, or a computed column's value expression is not
boundable by the base path, or a supplied predicate is not boundable by the base path;
the state (and hence the Catalog's `tbls` and `tbl_dependents`) is exactly as before. -/
theorem c6_create_validation_failures (st : PxState) (dir_id : Nat) (name : String)
    (base : TableVersionPath) (additional_columns : List Column) (predicate : Option Expr)
    (is_snapshot : Bool) (iterator : Option (IteratorCls × List (String × PxVal)))
    (new_id : Nat)
    (h : (∃ c ∈ Table.create_columns additional_columns,
            c.nullable = false ∧ c.is_computed = false) ∨
         (∃ c ∈ Table.create_columns additional_columns, c.is_computed = true ∧
            ∃ ve, c.value_expr = some ve ∧ ve.is_bound_by base = false) ∨
         (∃ p, predicate = some p ∧ p.is_bound_by base = false)) :
    (View.create st dir_id name base additional_columns predicate is_snapshot
      iterator new_id).1 = st ∧
    ∃ msg, (View.create st dir_id name base additional_columns predicate is_snapshot
      iterator new_id).2 = .error msg := by
  suffices hcore : ∃ msg, View.createCore st dir_id name base additional_columns predicate
      is_snapshot iterator new_id = .error msg by
    obtain ⟨msg, hmsg⟩ := hcore
    exact ⟨by simp [View.create, hmsg], msg, by simp [View.create, hmsg]⟩
  rcases h with h1 | h2 | h3
  · obtain ⟨msg, hmsg⟩ := verify_schema_go_error_of_bad _ h1 []
    exact ⟨msg, by simp [View.createCore, View.verify_schema, hmsg]⟩
  · cases hvs : View.verify_schema (Table.create_columns additional_columns) with
    | error msg => exact ⟨msg, by simp [View.createCore, hvs]⟩
    | ok u =>
      cases hcp : View.check_predicate base predicate with
      | error msg => exact ⟨msg, by simp [View.createCore, hvs, hcp]⟩
      | ok p1 =>
        obtain ⟨msg, hmsg⟩ := check_value_exprs_error_of_bad base _ h2
        exact ⟨msg, by simp [View.createCore, hvs, hcp, hmsg]⟩
  · cases hvs : View.verify_schema (Table.create_columns additional_columns) with
    | error msg => exact ⟨msg, by simp [View.createCore, hvs]⟩
    | ok u =>
      obtain ⟨p, rfl, hnb⟩ := h3
      refine ⟨"Filter cannot be computed in the context of the base " ++ base.tbl_name, ?_⟩
      simp [View.createCore, hvs, View.check_predicate, hnb]

theorem c6_create_validation_failures_witness :
    (View.create ⟨[], [(1, [])], [], [], []⟩ 0 "v"
      (TableVersionPath.root ⟨1, "base", 0, false,
        [⟨"c1", PxType.intT, true, true, false, none⟩]⟩)
      [⟨"x", PxType.intT, false, true, false, none⟩] none false none 7).1 =
      ⟨[], [(1, [])], [], [], []⟩ ∧
    ∃ msg, (View.create ⟨[], [(1, [])], [], [], []⟩ 0 "v"
      (TableVersionPath.root ⟨1, "base", 0, false,
        [⟨"c1", PxType.intT, true, true, false, none⟩]⟩)
      [⟨"x", PxType.intT, false, true, false, none⟩] none false none 7).2 = .error msg :=
  c6_create_validation_failures _ _ _ _ _ _ _ _ _
    (Or.inl ⟨⟨"x", PxType.intT, false, true, false, none⟩, by decide, rfl, rfl⟩)

theorem contains_iff_mem {α : Type} [BEq α] [LawfulBEq α] (l : List α) (a : α) :
    l.contains a = true ↔ a ∈ l := by
  simp [List.contains]

theorem iterator_columns_names (it : IteratorCls) :
    (iteratorColumns it).map Column.name = POS_COLUMN_NAME :: it.output_schema.map Prod.fst := by
  simp [iteratorColumns, List.map_map]

theorem check_iterator_collisions_cons (names : List String) (c : Column)
    (rest : List Column) :
    View.check_iterator_collisions names (c :: rest) =
      if names.contains c.name then
        .error ("Duplicate name: column " ++ c.name ++
          " is already present in the iterator output schema")
      else View.check_iterator_collisions names rest := rfl

theorem check_iterator_collisions_error_of_mem (names : List String) (cols : List Column)
    (h : ∃ c ∈ cols, names.contains c.name = true) :
    ∃ msg, View.check_iterator_collisions names cols = .error msg := by
  induction cols with
  | nil => simp at h
  | cons c rest ih =>
    obtain ⟨c0, hc0mem, hc0⟩ := h
    rw [check_iterator_collisions_cons]
    rcases List.mem_cons.mp hc0mem with rfl | hmem
    · exact ⟨_, by rw [if_pos hc0]⟩
    · cases hcc : names.contains c.name with
      | true => exact ⟨_, by rw [if_pos rfl]⟩
      | false =>
        obtain ⟨msg, hmsg⟩ := ih ⟨c0, hmem, hc0⟩
        refine ⟨msg, ?_⟩
        rw [if_neg Bool.false_ne_true]
        exact hmsg

theorem build_columns_some_eq (cols : List Column) (it : IteratorCls)
    (args : List (String × PxVal)) :
    View.build_columns_with_iterator cols (some (it, args)) =
      if !validate_iterator_args it args then
        .error "Cannot instantiate iterator with given arguments"
      else
        match View.check_iterator_collisions ((iteratorColumns it).map Column.name) cols with
        | .error msg => .error msg
        | .ok _ => .ok (iteratorColumns it ++ cols) := rfl

theorem build_columns_some_ok_inv (cols : List Column) (it : IteratorCls)
    (args : List (String × PxVal)) (columns1 : List Column)
    (h : View.build_columns_with_iterator cols (some (it, args)) = .ok columns1) :
    columns1 = iteratorColumns it ++ cols := by
  rw [build_columns_some_eq] at h
  cases hval : validate_iterator_args it args with
  | false => rw [hval] at h; simp at h
  | true =>
    rw [hval] at h
    simp only [Bool.not_true, Bool.false_eq_true, if_false] at h
    cases hcc : View.check_iterator_collisions ((iteratorColumns it).map Column.name) cols with
    | error msg => rw [hcc] at h; simp at h
    | ok u =>
      rw [hcc] at h
      simp only [Except.ok.injEq] at h
      exact h.symm

theorem finish_create_ok_view (base : TableVersionPath) (dir_id : Nat) (name : String)
    (bvp : TableVersionPath) (new_id : Nat) (st1 : PxState) (tv : TableVersion)
    (st' : PxState) (v : ViewObj)
    (h_run : View.finish_create base dir_id name bvp new_id st1 (some tv) = .ok (st', v)) :
    v = ⟨new_id, dir_id, name, .cons tv bvp, base.tbl_id, false⟩ := by
  unfold View.finish_create at h_run
  cases hnone : (dictGet st1.tbl_dependents base.tbl_id).isNone with
  | true => rw [hnone] at h_run; simp at h_run
  | false =>
    rw [hnone] at h_run
    simp only [Bool.false_eq_true, if_false] at h_run
    cases hget : dictGet (dictSet st1.tbl_dependents
        (⟨new_id, dir_id, name, .cons tv bvp, base.tbl_id, false⟩ : ViewObj).id [])
        base.tbl_id with
    | none => rw [hget] at h_run; simp at h_run
    | some bl =>
      rw [hget] at h_run
      simp only [Except.ok.injEq, Prod.mk.injEq] at h_run
      exact h_run.2.symm

theorem tv_create_snd_itercols (st : PxState) (nid : Nat) (it : IteratorCls)
    (cols : List Column) (md : ViewMd) :
    (TableVersion.create st nid (iteratorColumns it ++ cols) md).2 =
      some ⟨nid, "", 0, md.is_snapshot, iteratorColumns it ++ cols⟩ :=
  tv_create_snd_of_nonempty _ _ _ _ rfl

/-- C7: for every view creation with a row-generating iterator, the created physical
TableVersion's column list begins with the synthesized unstored integer `pos` column,
followed by one column per iterator output field (stored iff the field is not marked
unstored), followed by the user-declared columns; and creation fails whenever a
user-declared column name equals the position column's name or any iterator output
column's name. -/
theorem c7_component_view_spec (st : PxState) (dir_id : Nat) (name : String)
    (base : TableVersionPath) (additional_columns : List Column) (predicate : Option Expr)
    (is_snapshot : Bool) (it : IteratorCls) (args : List (String × PxVal)) (new_id : Nat) :
    (∀ st' v, View.create st dir_id name base additional_columns predicate is_snapshot
        (some (it, args)) new_id = (st', .ok v) →
      v.snapshot_only = false ∧
      v.tbl_version_path.tbl_version.columns =
        ⟨POS_COLUMN_NAME, PxType.intT, true, false, false, none⟩ ::
          (it.output_schema.map
            (fun p => ⟨p.1, p.2, true, !it.unstored_cols.contains p.1, false, none⟩) ++
            Table.create_columns additional_columns)) ∧
    ((∃ c ∈ Table.create_columns additional_columns,
        c.name = POS_COLUMN_NAME ∨ c.name ∈ it.output_schema.map Prod.fst) →
      ∃ msg, (View.create st dir_id name base additional_columns predicate is_snapshot
        (some (it, args)) new_id).2 = .error msg) := by
  constructor
  · intro st' v h_run
    unfold View.create at h_run
    cases hcore : View.createCore st dir_id name base additional_columns predicate
        is_snapshot (some (it, args)) new_id with
    | error msg =>
      rw [hcore] at h_run
      exact absurd (congrArg Prod.snd h_run) (by simp)
    | ok p =>
      obtain ⟨st1, view⟩ := p
      rw [hcore] at h_run
      simp only [Prod.mk.injEq, Except.ok.injEq] at h_run
      obtain ⟨hst, hv⟩ := h_run
      subst hst
      subst hv
      simp only [View.createCore] at hcore
      cases hvs : View.verify_schema (Table.create_columns additional_columns) with
      | error msg => rw [hvs] at hcore; exact absurd hcore (by simp)
      | ok u =>
        rw [hvs] at hcore
        cases hcp : View.check_predicate base predicate with
        | error msg => rw [hcp] at hcore; exact absurd hcore (by simp)
        | ok predicate1 =>
          rw [hcp] at hcore
          cases hcv : View.check_value_exprs_bound base (Table.create_columns additional_columns) with
          | error msg => rw [hcv] at hcore; exact absurd hcore (by simp)
          | ok u2 =>
            rw [hcv] at hcore
            cases hbc : View.build_columns_with_iterator (Table.create_columns additional_columns)
                (some (it, args)) with
            | error msg => rw [hbc] at hcore; exact absurd hcore (by simp)
            | ok columns1 =>
              rw [hbc] at hcore
              have hcols := build_columns_some_ok_inv _ _ _ _ hbc
              subst hcols
              simp only [View.create_session] at hcore
              rw [map_retarget_id] at hcore
              rw [ite_self] at hcore
              rw [tv_create_snd_itercols] at hcore
              have hview := finish_create_ok_view _ _ _ _ _ _ _ _ _ hcore
              subst hview
              exact ⟨rfl, by simp [iteratorColumns, TableVersionPath.tbl_version]⟩
  · intro hcol
    suffices hcore : ∃ msg, View.createCore st dir_id name base additional_columns predicate
        is_snapshot (some (it, args)) new_id = .error msg by
      obtain ⟨msg, hmsg⟩ := hcore
      exact ⟨msg, by simp [View.create, hmsg]⟩
    cases hvs : View.verify_schema (Table.create_columns additional_columns) with
    | error msg => exact ⟨msg, by simp [View.createCore, hvs]⟩
    | ok u =>
      cases hcp : View.check_predicate base predicate with
      | error msg => exact ⟨msg, by simp [View.createCore, hvs, hcp]⟩
      | ok p1 =>
        cases hcv : View.check_value_exprs_bound base (Table.create_columns additional_columns) with
        | error msg => exact ⟨msg, by simp [View.createCore, hvs, hcp, hcv]⟩
        | ok u2 =>
          cases hval : validate_iterator_args it args with
          | false =>
            refine ⟨"Cannot instantiate iterator with given arguments", ?_⟩
            simp [View.createCore, hvs, hcp, hcv, build_columns_some_eq, hval]
          | true =>
            have hmem : ∃ c ∈ Table.create_columns additional_columns,
                ((iteratorColumns it).map Column.name).contains c.name = true := by
              obtain ⟨c, hc, hdisj⟩ := hcol
              refine ⟨c, hc, ?_⟩
              rw [iterator_columns_names, contains_iff_mem]
              rcases hdisj with heq | hmem2
              · rw [heq]; exact List.mem_cons_self _ _
              · exact List.mem_cons_of_mem _ hmem2
            obtain ⟨msg, hmsg⟩ := check_iterator_collisions_error_of_mem
              ((iteratorColumns it).map Column.name) (Table.create_columns additional_columns) hmem
            refine ⟨msg, ?_⟩
            simp [View.createCore, hvs, hcp, hcv, build_columns_some_eq, hval, hmsg]

theorem c7_component_view_spec_witness :
    exView7.snapshot_only = false ∧
    exView7.tbl_version_path.tbl_version.columns =
      ⟨POS_COLUMN_NAME, PxType.intT, true, false, false, none⟩ ::
        (exIt.output_schema.map
          (fun p => ⟨p.1, p.2, true, !exIt.unstored_cols.contains p.1, false, none⟩) ++
          Table.create_columns []) ∧
    ∃ msg, (View.create exSt 0 "v" exBase
      [⟨"pos", PxType.intT, true, true, false, none⟩] none false
      (some (exIt, exArgs)) 9).2 = .error msg := by
  have h := (c7_component_view_spec exSt 0 "v" exBase [] none false exIt exArgs 7).1
    exSt7 exView7 rfl
  refine ⟨h.1, h.2, ?_⟩
  exact (c7_component_view_spec exSt 0 "v" exBase
    [⟨"pos", PxType.intT, true, true, false, none⟩] none false exIt exArgs 9).2
    ⟨⟨"pos", PxType.intT, true, true, false, none⟩, List.mem_singleton.mpr rfl, Or.inl rfl⟩

theorem mem_keys_dictSet {α : Type} (m : List (Nat × α)) (k : Nat) (v : α) (x : Nat) :
    x ∈ (dictSet m k v).map Prod.fst ↔ x ∈ m.map Prod.fst ∨ x = k := by
  induction m with
  | nil => simp [dictSet]
  | cons p rest ih =>
    obtain ⟨a, b⟩ := p
    by_cases h : a = k
    · subst h
      simp [dictSet]
      tauto
    · simp [dictSet, h, ih]
      tauto

theorem dictSet_keys_nodup {α : Type} (m : List (Nat × α)) (k : Nat) (v : α)
    (h : (m.map Prod.fst).Nodup) : ((dictSet m k v).map Prod.fst).Nodup := by
  induction m with
  | nil => simp [dictSet]
  | cons p rest ih =>
    obtain ⟨a, b⟩ := p
    simp only [List.map_cons, List.nodup_cons] at h
    by_cases hak : a = k
    · subst hak
      have hset : dictSet ((a, b) :: rest) a v = (a, v) :: rest := by simp [dictSet]
      rw [hset]
      simp only [List.map_cons, List.nodup_cons]
      exact ⟨h.1, h.2⟩
    · simp only [dictSet, hak, if_false, List.map_cons, List.nodup_cons]
      refine ⟨?_, ih h.2⟩
      intro hmem
      rcases (mem_keys_dictSet rest k v a).mp hmem with h1 | h2
      · exact h.1 h1
      · exact hak h2

/-- C5: a View can only be dropped once every entry of its own dependents list is
marked dropped — a violation is an assertion failure, not a user error; under the
precondition, dropping a snapshot-only view deletes only metadata (the physical
TableVersion set is untouched) while any other view delegates to the generic Table
drop, and in both cases the view is removed from its base's dependents list and its own
dependents entry is deleted from the Catalog. -/
theorem c5_view_drop_spec (st : PxState) (v : ViewObj) (dl bl : List Nat)
    (h_nodup_deps : (st.tbl_dependents.map Prod.fst).Nodup)
    (h_nodup_tbls : (st.tbls.map Prod.fst).Nodup)
    (h_dl : dictGet st.tbl_dependents v.id = some dl) :
    ((∃ d ∈ dl, st.dropped.contains d = false) →
      View.drop st v = .error .assertionFailure) ∧
    ((∀ d ∈ dl, st.dropped.contains d = true) →
      dictGet st.tbl_dependents v.base_id = some bl →
      bl.contains v.id = true →
      v.base_id ≠ v.id →
      st.dropped.contains v.id = false →
      ∃ st', View.drop st v = .ok st' ∧
        dictGet st'.tbl_dependents v.id = none ∧
        dictGet st'.tbl_dependents v.base_id = some (listRemove bl v.id) ∧
        (v.snapshot_only = true →
          st'.phys_tbls = st.phys_tbls ∧
          st'.stored_md = dictErase st.stored_md v.id ∧
          dictGet st'.tbls v.id = none) ∧
        (v.snapshot_only = false →
          ∃ st1, Table.genericDrop st v = .ok st1 ∧
            st' = { st1 with tbl_dependents := dictErase (dictSet st1.tbl_dependents v.base_id (listRemove bl v.id)) v.id })) := by
  constructor
  · rintro ⟨d, hd, hdf⟩
    have hdprop : d ∉ st.dropped := by simpa using hdf
    simp only [View.drop, h_dl]
    simp
    intro hforall
    exact absurd (hforall d hd) hdprop
  · intro h_all h_bl h_blmem h_ne h_nd
    have hallprop : ∀ x ∈ dl, x ∈ st.dropped := fun x hx => by simpa using h_all x hx
    have hnex : ¬ ∃ x ∈ dl, x ∉ st.dropped := by push_neg; exact hallprop
    have hndprop : v.id ∉ st.dropped := by simpa using h_nd
    have hblprop : v.id ∈ bl := by simpa using h_blmem
    cases hsnap : v.snapshot_only with
    | true =>
      refine ⟨⟨dictErase st.tbls v.id,
        dictErase (dictSet st.tbl_dependents v.base_id (listRemove bl v.id)) v.id,
        v.id :: st.dropped, dictErase st.stored_md v.id, st.phys_tbls⟩, ?_, ?_, ?_, ?_, ?_⟩
      · simp [View.drop, h_dl, hsnap, h_bl, hnex, hndprop, hblprop]
      · exact dictGet_dictErase_self _ _ (dictSet_keys_nodup _ _ _ h_nodup_deps)
      · rw [show (⟨dictErase st.tbls v.id,
          dictErase (dictSet st.tbl_dependents v.base_id (listRemove bl v.id)) v.id,
          v.id :: st.dropped, dictErase st.stored_md v.id, st.phys_tbls⟩ : PxState).tbl_dependents =
          dictErase (dictSet st.tbl_dependents v.base_id (listRemove bl v.id)) v.id from rfl]
        rw [dictGet_dictErase_ne _ _ _ h_ne, dictGet_dictSet_self]
      · intro _
        exact ⟨rfl, rfl, dictGet_dictErase_self _ _ h_nodup_tbls⟩
      · intro hcontra
        exact absurd hcontra (by simp)
    | false =>
      refine ⟨⟨dictErase st.tbls v.id,
        dictErase (dictSet st.tbl_dependents v.base_id (listRemove bl v.id)) v.id,
        v.id :: st.dropped, dictErase st.stored_md v.id, listRemove st.phys_tbls v.id⟩,
        ?_, ?_, ?_, ?_, ?_⟩
      · simp [View.drop, h_dl, hsnap, h_bl, hnex, hndprop, hblprop, Table.genericDrop]
      · exact dictGet_dictErase_self _ _ (dictSet_keys_nodup _ _ _ h_nodup_deps)
      · rw [show (⟨dictErase st.tbls v.id,
          dictErase (dictSet st.tbl_dependents v.base_id (listRemove bl v.id)) v.id,
          v.id :: st.dropped, dictErase st.stored_md v.id,
          listRemove st.phys_tbls v.id⟩ : PxState).tbl_dependents =
          dictErase (dictSet st.tbl_dependents v.base_id (listRemove bl v.id)) v.id from rfl]
        rw [dictGet_dictErase_ne _ _ _ h_ne, dictGet_dictSet_self]
      · intro hcontra
        exact absurd hcontra (by simp)
      · intro _
        exact ⟨⟨dictErase st.tbls v.id, st.tbl_dependents, v.id :: st.dropped,
          dictErase st.stored_md v.id, listRemove st.phys_tbls v.id⟩,
          by simp [Table.genericDrop, hndprop], rfl⟩

theorem c5_view_drop_spec_witness :
    (∃ st', View.drop ⟨[(5, ⟨5, 0, "v5", exBase, 1, true⟩)], [(1, [5]), (5, [])], [], [], []⟩
        ⟨5, 0, "v5", exBase, 1, true⟩ = .ok st' ∧
      dictGet st'.tbl_dependents 5 = none ∧
      dictGet st'.tbl_dependents 1 = some (listRemove [5] 5) ∧
      st'.phys_tbls = []) ∧
    View.drop ⟨[(5, ⟨5, 0, "v5", exBase, 1, true⟩)], [(1, [5]), (5, [6])], [], [], []⟩
      ⟨5, 0, "v5", exBase, 1, true⟩ = .error .assertionFailure := by
  constructor
  · obtain ⟨st', h1, h2, h3, h4, _⟩ :=
      (c5_view_drop_spec ⟨[(5, ⟨5, 0, "v5", exBase, 1, true⟩)], [(1, [5]), (5, [])], [], [], []⟩
        ⟨5, 0, "v5", exBase, 1, true⟩ [] [5] (by decide) (by decide) (by decide)).2
        (by decide) (by decide) (by decide) (by decide) (by decide)
    exact ⟨st', h1, h2, h3, (h4 rfl).1⟩
  · exact (c5_view_drop_spec ⟨[(5, ⟨5, 0, "v5", exBase, 1, true⟩)], [(1, [5]), (5, [6])], [], [], []⟩
      ⟨5, 0, "v5", exBase, 1, true⟩ [6] [5] (by decide) (by decide) (by decide)).1
      ⟨6, by decide, by decide⟩

theorem lookupStr_append {α : Type} (a b : List (String × α)) (n : String) :
    lookupStr (a ++ b) n =
      match lookupStr a n with
      | some v => some v
      | none => lookupStr b n := by
  induction a with
  | nil => simp [lookupStr]
  | cons p rest ih =>
    obtain ⟨k, v⟩ := p
    by_cases h : n = k
    · simp [lookupStr, h]
    · simp [lookupStr, h, ih]

theorem lookupStr_eq_none_iff {α : Type} (m : List (String × α)) (n : String) :
    lookupStr m n = none ↔ n ∉ m.map Prod.fst := by
  induction m with
  | nil => simp [lookupStr]
  | cons p rest ih =>
    obtain ⟨k, v⟩ := p
    by_cases h : n = k
    · simp [lookupStr, h]
    · simp [lookupStr, h, ih]

theorem lookupStr_some_mem {α : Type} (m : List (String × α)) (n : String) (t : α)
    (h : lookupStr m n = some t) : (n, t) ∈ m := by
  induction m with
  | nil => simp [lookupStr] at h
  | cons p rest ih =>
    obtain ⟨k, v⟩ := p
    by_cases hk : n = k
    · rw [lookupStr, if_pos hk] at h
      subst hk
      obtain rfl : v = t := by injection h
      exact List.mem_cons_self _ _
    · rw [lookupStr, if_neg hk] at h
      exact List.mem_cons_of_mem _ (ih h)

theorem lookupStr_append_some {α : Type} (a b : List (String × α)) (n : String) (v : α)
    (h : lookupStr a n = some v) : lookupStr (a ++ b) n = some v := by
  induction a with
  | nil => simp [lookupStr] at h
  | cons p rest ih =>
    obtain ⟨k, w⟩ := p
    by_cases hk : n = k
    · rw [lookupStr, if_pos hk] at h
      rw [List.cons_append, lookupStr, if_pos hk]
      exact h
    · rw [lookupStr, if_neg hk] at h
      rw [List.cons_append, lookupStr, if_neg hk]
      exact ih h

theorem lookupStr_append_none {α : Type} (a b : List (String × α)) (n : String)
    (h : lookupStr a n = none) : lookupStr (a ++ b) n = lookupStr b n := by
  induction a with
  | nil => simp [lookupStr]
  | cons p rest ih =>
    obtain ⟨k, w⟩ := p
    by_cases hk : n = k
    · rw [lookupStr, if_pos hk] at h
      exact absurd h (by simp)
    · rw [lookupStr, if_neg hk] at h
      rw [List.cons_append, lookupStr, if_neg hk]
      exact ih h

theorem collectVars_ok_spec (l : List (String × PxType)) :
    ∀ acc m, collectVars acc l = .ok m →
    (∀ n, lookupStr m n = lookupStr acc n ∨ lookupStr acc n = none) ∧
    (∀ p ∈ l, lookupStr m p.1 = some p.2) ∧
    (∀ x ∈ m, x ∈ acc ∨ x ∈ l) ∧
    (∀ n, n ∈ m.map Prod.fst ↔ n ∈ acc.map Prod.fst ∨ n ∈ l.map Prod.fst) ∧
    ((acc.map Prod.fst).Nodup → (m.map Prod.fst).Nodup) := by
  induction l with
  | nil =>
    intro acc m h
    rw [collectVars] at h
    obtain rfl : acc = m := by injection h
    refine ⟨fun n => Or.inl rfl, by simp, fun x hx => Or.inl hx, by simp, id⟩
  | cons p rest ih =>
    obtain ⟨n, t⟩ := p
    intro acc m h
    rw [collectVars] at h
    cases hla : lookupStr acc n with
    | none =>
      rw [hla] at h
      obtain ⟨ih1, ih2, ih3, ih4, ih5⟩ := ih (acc ++ [(n, t)]) m h
      refine ⟨?_, ?_, ?_, ?_, ?_⟩
      · intro n'
        rcases ih1 n' with h1 | h1
        · cases hlan' : lookupStr acc n' with
          | some v =>
            rw [lookupStr_append_some acc [(n, t)] n' v hlan'] at h1
            exact Or.inl h1
          | none => exact Or.inr rfl
        · cases hlan' : lookupStr acc n' with
          | some v =>
            rw [lookupStr_append_some acc [(n, t)] n' v hlan'] at h1
            exact absurd h1 (by simp)
          | none => exact Or.inr rfl
      · intro q hq
        rcases List.mem_cons.mp hq with rfl | hq2
        · show lookupStr m n = some t
          rcases ih1 n with h1 | h1
          · rw [h1, lookupStr_append_none acc [(n, t)] n hla]
            simp [lookupStr]
          · rw [lookupStr_append_none acc [(n, t)] n hla] at h1
            simp [lookupStr] at h1
        · exact ih2 q hq2
      · intro x hx
        rcases ih3 x hx with h1 | h1
        · rcases List.mem_append.mp h1 with h2 | h2
          · exact Or.inl h2
          · simp at h2
            exact Or.inr (by rw [h2]; exact List.mem_cons_self _ _)
        · exact Or.inr (List.mem_cons_of_mem _ h1)
      · intro n'
        rw [ih4 n', List.map_append]
        simp only [List.map_cons, List.map_nil, List.mem_append, List.mem_singleton,
          List.mem_cons]
        tauto
      · intro hnodup
        refine ih5 ?_
        rw [List.map_append]
        simp only [List.map_cons, List.map_nil]
        rw [List.nodup_append]
        refine ⟨hnodup, List.nodup_singleton _, ?_⟩
        intro a ha hb
        simp at hb
        rw [hb] at ha
        exact (lookupStr_eq_none_iff acc n).mp hla ha
    | some t0 =>
      rw [hla] at h
      have h2 : (if t0 ≠ t then
          (Except.error ("Multiple definitions of parameter " ++ n) :
            Except String (List (String × PxType)))
        else collectVars acc rest) = .ok m := h
      by_cases ht : t0 ≠ t
      · rw [if_pos ht] at h2
        exact absurd h2 (by simp)
      · rw [if_neg ht] at h2
        push_neg at ht
        subst ht
        obtain ⟨ih1, ih2, ih3, ih4, ih5⟩ := ih acc m h2
        refine ⟨ih1, ?_, ?_, ?_, ih5⟩
        · intro q hq
          rcases List.mem_cons.mp hq with rfl | hq2
          · show lookupStr m n = some t0
            rcases ih1 n with h1 | h1
            · rw [h1, hla]
            · rw [hla] at h1
              exact absurd h1 (by simp)
          · exact ih2 q hq2
        · intro x hx
          rcases ih3 x hx with h1 | h1
          · exact Or.inl h1
          · exact Or.inr (List.mem_cons_of_mem _ h1)
        · intro n'
          rw [ih4 n']
          simp only [List.map_cons, List.mem_cons]
          constructor
          · intro h1
            rcases h1 with h2 | h2
            · exact Or.inl h2
            · exact Or.inr (Or.inr h2)
          · intro h1
            rcases h1 with h2 | h2 | h2
            · exact Or.inl h2
            · subst h2
              refine Or.inl ?_
              by_contra hnot
              rw [← lookupStr_eq_none_iff acc n'] at hnot
              rw [hnot] at hla
              exact Option.noConfusion hla
            · exact Or.inr h2

theorem collectVars_ok_of_consistent (l : List (String × PxType)) :
    ∀ acc, (∀ p, (p ∈ acc ∨ p ∈ l) → ∀ q, (q ∈ acc ∨ q ∈ l) → p.1 = q.1 → p.2 = q.2) →
    ∃ m, collectVars acc l = .ok m := by
  induction l with
  | nil => exact fun acc _ => ⟨acc, rfl⟩
  | cons p rest ih =>
    obtain ⟨n, t⟩ := p
    intro acc hcons
    rw [collectVars]
    cases hla : lookupStr acc n with
    | none =>
      have htrans : ∀ x : String × PxType,
          (x ∈ acc ++ [(n, t)] ∨ x ∈ rest) → (x ∈ acc ∨ x ∈ (n, t) :: rest) := by
        intro x hx
        rcases hx with hx | hx
        · rcases List.mem_append.mp hx with h2 | h2
          · exact Or.inl h2
          · simp at h2
            exact Or.inr (by rw [h2]; exact List.mem_cons_self _ _)
        · exact Or.inr (List.mem_cons_of_mem _ hx)
      exact ih (acc ++ [(n, t)]) (fun p hp q hq hpq => hcons p (htrans p hp) q (htrans q hq) hpq)
    | some t0 =>
      have ht0 : t0 = t := by
        have hmem := lookupStr_some_mem acc n t0 hla
        exact hcons (n, t0) (Or.inl hmem) (n, t) (Or.inr (List.mem_cons_self _ _)) rfl
      show ∃ m, (if t0 ≠ t then
          (Except.error ("Multiple definitions of parameter " ++ n) :
            Except String (List (String × PxType)))
        else collectVars acc rest) = .ok m
      rw [if_neg (by simp [ht0])]
      have htrans : ∀ x : String × PxType,
          (x ∈ acc ∨ x ∈ rest) → (x ∈ acc ∨ x ∈ (n, t) :: rest) := by
        intro x hx
        rcases hx with hx | hx
        · exact Or.inl hx
        · exact Or.inr (List.mem_cons_of_mem _ hx)
      exact ih acc (fun p hp q hq hpq => hcons p (htrans p hp) q (htrans q hq) hpq)

theorem buildVarExprs_filter (vars : List (String × PxType)) (names : List String)
    (hiff : ∀ n, lookupStr vars n = none ↔ n ∉ names) (args : List (String × PxVal)) :
    buildVarExprs vars (args.filter (fun a => decide (a.1 ∈ names))) =
      buildVarExprs vars args := by
  induction args with
  | nil => rfl
  | cons a rest ih =>
    obtain ⟨n, v⟩ := a
    by_cases hn : n ∈ names
    · rw [List.filter_cons_of_pos (by simpa using hn)]
      cases hl : lookupStr vars n with
      | none => exact absurd ((hiff n).mp hl) (not_not_intro hn)
      | some t =>
        rw [buildVarExprs, buildVarExprs, hl]
        rw [ih]
    · cases hl : lookupStr vars n with
      | some t =>
        exact absurd hn (by
          intro _
          have := (hiff n).mpr
          by_cases h2 : n ∈ names
          · exact hn h2
          · rw [this h2] at hl
            exact Option.noConfusion hl)
      | none =>
        rw [List.filter_cons_of_neg (by simpa using hn)]
        rw [ih, buildVarExprs, hl]

theorem buildVarExprs_error_of_bad (vars : List (String × PxType))
    (args : List (String × PxVal))
    (h : ∃ p ∈ args, lookupStr vars p.1 ≠ none ∧ Expr.from_object p.2 = none) :
    ∃ msg, buildVarExprs vars args = .error msg := by
  induction args with
  | nil => simp at h
  | cons a rest ih =>
    obtain ⟨n, v⟩ := a
    obtain ⟨p0, hp0mem, hlk, hfo⟩ := h
    rcases List.mem_cons.mp hp0mem with rfl | hmem
    · have hfo' : Expr.from_object v = none := hfo
      have hlk' : lookupStr vars n ≠ none := hlk
      cases hl : lookupStr vars n with
      | none => exact absurd hl hlk'
      | some t =>
        refine ⟨"Cannot convert argument to a Pixeltable expression", ?_⟩
        rw [buildVarExprs, hl, hfo']
    · cases hl : lookupStr vars n with
      | none =>
        obtain ⟨msg, hmsg⟩ := ih ⟨p0, hmem, hlk, hfo⟩
        refine ⟨msg, ?_⟩
        rw [buildVarExprs, hl]
        exact hmsg
      | some t =>
        cases hfo2 : Expr.from_object v with
        | none =>
          refine ⟨"Cannot convert argument to a Pixeltable expression", ?_⟩
          rw [buildVarExprs, hl, hfo2]
        | some ae =>
          obtain ⟨msg, hmsg⟩ := ih ⟨p0, hmem, hlk, hfo⟩
          refine ⟨msg, ?_⟩
          rw [buildVarExprs, hl, hfo2, hmsg]

theorem buildVarExprs_ok_mem (vars : List (String × PxType)) (args : List (String × PxVal)) :
    ∀ m, buildVarExprs vars args = .ok m →
    ∀ n v, (n, v) ∈ args → ∀ t, lookupStr vars n = some t →
      ∃ ae, Expr.from_object v = some ae ∧ (Expr.var n t, ae) ∈ m := by
  induction args with
  | nil =>
    intro m _ n v hmem
    simp at hmem
  | cons a rest ih =>
    obtain ⟨n0, v0⟩ := a
    intro m h n v hmem t hl
    rw [buildVarExprs] at h
    cases hl0 : lookupStr vars n0 with
    | none =>
      rw [hl0] at h
      have h2 : buildVarExprs vars rest = .ok m := h
      rcases List.mem_cons.mp hmem with heq | hmem2
      · obtain ⟨rfl, rfl⟩ : n = n0 ∧ v = v0 := Prod.mk.injEq .. |>.mp heq
        rw [hl0] at hl
        exact absurd hl (by simp)
      · exact ih m h2 n v hmem2 t hl
    | some t0 =>
      rw [hl0] at h
      cases hfo : Expr.from_object v0 with
      | none =>
        rw [hfo] at h
        exact absurd h (by simp)
      | some ae0 =>
        rw [hfo] at h
        cases hrest : buildVarExprs vars rest with
        | error msg =>
          rw [hrest] at h
          exact absurd h (by simp)
        | ok m0 =>
          rw [hrest] at h
          have h2 : Except.ok ((Expr.var n0 t0, ae0) :: m0) = (Except.ok m : Except String _) := h
          obtain rfl : (Expr.var n0 t0, ae0) :: m0 = m := by injection h2
          rcases List.mem_cons.mp hmem with heq | hmem2
          · obtain ⟨rfl, rfl⟩ : n = n0 ∧ v = v0 := Prod.mk.injEq .. |>.mp heq
            rw [hl0] at hl
            obtain rfl : t0 = t := by injection hl
            exact ⟨ae0, hfo, List.mem_cons_self _ _⟩
          · obtain ⟨ae, hae, haemem⟩ := ih m0 hrest n v hmem2 t hl
            exact ⟨ae, hae, List.mem_cons_of_mem _ haemem⟩

/-- C8: `parameters()` yields one entry per distinct free variable name of the
select/where/group-by/order-by trees and errors when a name recurs with two different
declared types; `bind(args)` substitutes each bound variable by a literal built from
the supplied value in a new DataFrame, errors when a used value cannot convert to an
expression, and silently ignores argument keys naming no variable. -/
theorem c8_parameters_bind_spec (df : DataFrame) :
    ((∀ p ∈ df.allVarOccs, ∀ q ∈ df.allVarOccs, p.1 = q.1 → p.2 = q.2) →
      ∃ m, df.parameters = .ok m ∧ (m.map Prod.fst).Nodup ∧
        (∀ x ∈ m, x ∈ df.allVarOccs) ∧
        (∀ n, n ∈ m.map Prod.fst ↔ n ∈ df.varNames)) ∧
    ((∃ p ∈ df.allVarOccs, ∃ q ∈ df.allVarOccs, p.1 = q.1 ∧ p.2 ≠ q.2) →
      ∃ msg, df.parameters = .error msg) ∧
    (∀ args, df.bind args = df.bind (args.filter (fun a => decide (a.1 ∈ df.varNames)))) ∧
    (∀ args n v, (n, v) ∈ args → n ∈ df.varNames → Expr.from_object v = none →
      ∃ msg, df.bind args = .error msg) ∧
    (∀ args df', df.bind args = .ok df' →
      ∃ vars var_exprs, df.vars = .ok vars ∧ buildVarExprs vars args = .ok var_exprs ∧
        df'.tbl = df.tbl ∧ df'.grouping_tbl = df.grouping_tbl ∧
        df'.limit_val = df.limit_val ∧
        df'.where_clause = df.where_clause.map (Expr.substitute var_exprs) ∧
        df'.group_by_clause = df.group_by_clause.map (List.map (Expr.substitute var_exprs)) ∧
        df'.order_by_clause = df.order_by_clause.map
          (List.map (fun p => (Expr.substitute var_exprs p.1, p.2))) ∧
        df'.select_list = some (((df.select_list_exprs.map
          (Expr.substitute var_exprs)).zip df.schema_keys).map (fun p => (p.1, some p.2))) ∧
        (∀ n v, (n, v) ∈ args → ∀ t, lookupStr vars n = some t →
          ∃ ae, Expr.from_object v = some ae ∧ (Expr.var n t, ae) ∈ var_exprs)) := by
  refine ⟨?_, ?_, ?_, ?_, ?_⟩
  · intro hcons
    obtain ⟨m, hm⟩ := collectVars_ok_of_consistent df.allVarOccs []
      (by
        intro p hp q hq
        rcases hp with hp | hp
        · simp at hp
        · rcases hq with hq | hq
          · simp at hq
          · exact hcons p hp q hq)
    obtain ⟨s1, s2, s3, s4, s5⟩ := collectVars_ok_spec _ _ _ hm
    refine ⟨m, hm, s5 (by simp), fun x hx => ?_, fun n => ?_⟩
    · rcases s3 x hx with h | h
      · simp at h
      · exact h
    · rw [s4 n]
      simp [DataFrame.varNames]
  · rintro ⟨p, hp, q, hq, hpq, hne⟩
    cases h : collectVars [] df.allVarOccs with
    | error msg => exact ⟨msg, h⟩
    | ok m =>
      have s2 := (collectVars_ok_spec _ _ _ h).2.1
      have h1 := s2 p hp
      have h2 := s2 q hq
      rw [hpq] at h1
      rw [h1] at h2
      exact absurd (by injection h2) hne
  · intro args
    cases hv : df.vars with
    | error msg => simp [DataFrame.bind, hv]
    | ok vars =>
      have hiff : ∀ n, lookupStr vars n = none ↔ n ∉ df.varNames := by
        intro n
        rw [lookupStr_eq_none_iff]
        have s4 := (collectVars_ok_spec _ _ _ hv).2.2.2.1 n
        have hkeys : n ∈ vars.map Prod.fst ↔ n ∈ df.varNames := by
          rw [s4]
          simp [DataFrame.varNames]
        exact not_congr hkeys
      simp only [DataFrame.bind, hv]
      rw [buildVarExprs_filter vars df.varNames hiff args]
  · intro args n v hmem hname hfo
    cases hv : df.vars with
    | error msg => exact ⟨msg, by simp [DataFrame.bind, hv]⟩
    | ok vars =>
      have hlk : lookupStr vars n ≠ none := by
        intro hnot
        have hmem2 : n ∈ vars.map Prod.fst := by
          rw [(collectVars_ok_spec _ _ _ hv).2.2.2.1 n]
          right
          simpa [DataFrame.varNames] using hname
        exact (lookupStr_eq_none_iff vars n).mp hnot hmem2
      obtain ⟨msg, hmsg⟩ := buildVarExprs_error_of_bad vars args ⟨(n, v), hmem, hlk, hfo⟩
      exact ⟨msg, by simp [DataFrame.bind, hv, hmsg]⟩
  · intro args df' h
    rw [DataFrame.bind] at h
    cases hv : df.vars with
    | error msg =>
      rw [hv] at h
      exact absurd h (by simp)
    | ok vars =>
      rw [hv] at h
      have h3 : (match buildVarExprs vars args with
          | Except.error msg => (Except.error msg : Except String DataFrame)
          | Except.ok var_exprs =>
            Except.ok (⟨df.tbl,
              some (((df.select_list_exprs.map
                (Expr.substitute var_exprs)).zip df.schema_keys).map (fun p => (p.1, some p.2))),
              df.where_clause.map (Expr.substitute var_exprs),
              df.group_by_clause.map (List.map (Expr.substitute var_exprs)),
              df.grouping_tbl,
              df.order_by_clause.map (List.map (fun p => (Expr.substitute var_exprs p.1, p.2))),
              df.limit_val⟩ : DataFrame)) = Except.ok df' := h
      cases hbv : buildVarExprs vars args with
      | error msg =>
        rw [hbv] at h3
        exact absurd h3 (by simp)
      | ok var_exprs =>
        rw [hbv] at h3
        have h2 : Except.ok (⟨df.tbl,
            some (((df.select_list_exprs.map
              (Expr.substitute var_exprs)).zip df.schema_keys).map (fun p => (p.1, some p.2))),
            df.where_clause.map (Expr.substitute var_exprs),
            df.group_by_clause.map (List.map (Expr.substitute var_exprs)),
            df.grouping_tbl,
            df.order_by_clause.map (List.map (fun p => (Expr.substitute var_exprs p.1, p.2))),
            df.limit_val⟩ : DataFrame) = (Except.ok df' : Except String DataFrame) := h3
        obtain rfl : (⟨df.tbl,
            some (((df.select_list_exprs.map
              (Expr.substitute var_exprs)).zip df.schema_keys).map (fun p => (p.1, some p.2))),
            df.where_clause.map (Expr.substitute var_exprs),
            df.group_by_clause.map (List.map (Expr.substitute var_exprs)),
            df.grouping_tbl,
            df.order_by_clause.map (List.map (fun p => (Expr.substitute var_exprs p.1, p.2))),
            df.limit_val⟩ : DataFrame) = df' := by injection h2
        exact ⟨vars, var_exprs, rfl, hbv, rfl, rfl, rfl, rfl, rfl, rfl, rfl,
          buildVarExprs_ok_mem vars args var_exprs hbv⟩

theorem c8_parameters_bind_spec_witness :
    (∃ m, exDf.parameters = .ok m ∧ (m.map Prod.fst).Nodup ∧
      (∀ x ∈ m, x ∈ exDf.allVarOccs) ∧
      (∀ n, n ∈ m.map Prod.fst ↔ n ∈ exDf.varNames)) ∧
    (∃ msg, exDfConflict.parameters = .error msg) ∧
    (exDf.bind [("x", PxVal.boolV true), ("y", PxVal.intV 1)] =
      exDf.bind ([("x", PxVal.boolV true), ("y", PxVal.intV 1)].filter
        (fun a => decide (a.1 ∈ exDf.varNames)))) ∧
    (∃ msg, exDf.bind [("x", PxVal.badV)] = .error msg) ∧
    (∃ vars var_exprs, exDf.vars = .ok vars ∧
      buildVarExprs vars [("x", PxVal.boolV true)] = .ok var_exprs ∧
      exDfBound.where_clause = exDf.where_clause.map (Expr.substitute var_exprs)) := by
  refine ⟨?_, ?_, ?_, ?_, ?_⟩
  · exact (c8_parameters_bind_spec exDf).1 (by decide)
  · exact (c8_parameters_bind_spec exDfConflict).2.1 (by decide)
  · exact (c8_parameters_bind_spec exDf).2.2.1 _
  · exact (c8_parameters_bind_spec exDf).2.2.2.1 _ "x" PxVal.badV (by decide) (by decide) rfl
  · obtain ⟨vars, σ, h1, h2, _, _, _, hw, _⟩ :=
      (c8_parameters_bind_spec exDf).2.2.2.2 [("x", PxVal.boolV true)] exDfBound (by rfl)
    exact ⟨vars, σ, h1, h2, hw⟩


theorem expr_from_as_dict (e : Expr) : Expr.from_dict (Expr.as_dict e) = some e := by
  induction e with
  | var n t => rfl
  | lit v t => rfl
  | colRef n t => rfl
  | binop op l r t ih1 ih2 => simp [Expr.as_dict, Expr.from_dict, ih1, ih2]

theorem column_from_as_dict (c : Column) : Column.from_dict (Column.as_dict c) = some c := by
  cases c with
  | mk n t nu s ic ve =>
    cases ve with
    | none => rfl
    | some e => simp [Column.as_dict, Column.from_dict, expr_from_as_dict]

theorem decodeColumns_roundtrip (cols : List Column) :
    decodeColumns (cols.map Column.as_dict) = some cols := by
  induction cols with
  | nil => rfl
  | cons c rest ih => simp [decodeColumns, column_from_as_dict, ih]

theorem tv_from_as_dict (tv : TableVersion) :
    TableVersion.from_dict (TableVersion.as_dict tv) = some tv := by
  cases tv with
  | mk i name ver snap cols =>
    simp [TableVersion.as_dict, TableVersion.from_dict, decodeColumns_roundtrip]

theorem tvp_from_as_dict (p : TableVersionPath) :
    TableVersionPath.from_dict p.as_dict = some p := by
  induction p with
  | root tv => simp [TableVersionPath.as_dict, TableVersionPath.from_dict, tv_from_as_dict]
  | cons tv b ih =>
    simp [TableVersionPath.as_dict, TableVersionPath.from_dict, tv_from_as_dict, ih]

theorem decodeSelectList_roundtrip (sl : List (Expr × Option String)) :
    decodeSelectList (sl.map (fun p => (p.1.as_dict, p.2))) = some sl := by
  induction sl with
  | nil => rfl
  | cons p rest ih =>
    obtain ⟨e, name⟩ := p
    simp [decodeSelectList, expr_from_as_dict, ih]

theorem decodeExprs_roundtrip (l : List Expr) :
    decodeExprs (l.map Expr.as_dict) = some l := by
  induction l with
  | nil => rfl
  | cons e rest ih => simp [decodeExprs, expr_from_as_dict, ih]

theorem decodeOrderBy_roundtrip (l : List (Expr × Bool)) :
    decodeOrderBy (l.map (fun p => (p.1.as_dict, p.2))) = some l := by
  induction l with
  | nil => rfl
  | cons p rest ih =>
    obtain ⟨e, asc⟩ := p
    simp [decodeOrderBy, expr_from_as_dict, ih]

/-- C9: `DataFrame.from_dict(df.as_dict())` reconstructs the DataFrame exactly — the
same table path, select list (expressions and names), where clause, group-by clause,
grouping table, order-by pairs (expression and ascending flag) and limit value — for
every DataFrame satisfying the constructor's representation checks; identical fields
give an identical compiled plan and result set. -/
theorem c9_as_dict_roundtrip (df : DataFrame)
    (h : DataFrame.check_rep df.select_list df.group_by_clause df.grouping_tbl = true) :
    DataFrame.from_dict (DataFrame.as_dict df) = some df := by
  obtain ⟨tbl, sl, wc, gb, gt, ob, lv⟩ := df
  simp only at h
  cases sl <;> cases wc <;> cases gb <;> cases gt <;> cases ob <;>
    simp_all [DataFrame.as_dict, DataFrame.from_dict,
      tvp_from_as_dict, tv_from_as_dict, expr_from_as_dict, decodeSelectList_roundtrip,
      decodeExprs_roundtrip, decodeOrderBy_roundtrip]

theorem c9_as_dict_roundtrip_witness :
    DataFrame.from_dict (DataFrame.as_dict exDf) = some exDf :=
  c9_as_dict_roundtrip exDf (by rfl)
